import Mathlib

/-!
# SuspiciousPtrPass: a shallow embedding

Embedding of `src/Code/SuspiciousPtrPass.cpp`, the static analysis that flags
definite out-of-bounds accesses and dereferenced integer-to-pointer round-trips.

* LLVM values are expression trees: an operand is embedded in its user.  The only
  identity that the pass compares by address is that of a stack slot, which carries
  an `Id`.
* `int64_t` is `Int`, `uint64_t` is `Nat`; every conversion and every wrapping
  operation of the source is written out with `toU64` / `toI64` / `% 2 ^ 64`.
* The three command-line flags are a `Config` value; diagnostics printed to `errs()`
  are the returned `List Finding`, in print order.
* LLVM services that are not part of this repository (`DataLayout`, `stripPointerCasts`,
  `GetPointerBaseWithConstantOffset`, `getUnderlyingObject`) are parameters.
* Undefined behaviour of the source (an out-of-range struct field lookup, a missing
  call argument) and running out of recursion fuel are `Except.error`.
-/

namespace SuspiciousPtr

/-! ## 64-bit machine integers -/

/-- Conversion of an `int64_t` to `uint64_t` (two's complement). -/
def toU64 (x : Int) : Nat := (x % (2 : Int) ^ 64).toNat

/-- Conversion of a `uint64_t` (or of an unbounded unsigned result, reduced modulo
2^64) to `int64_t`. -/
def toI64 (n : Nat) : Int :=
  if n % 2 ^ 64 < 2 ^ 63 then ((n % 2 ^ 64 : Nat) : Int) else ((n % 2 ^ 64 : Nat) : Int) - (2 : Int) ^ 64

/-! ## Data model -/

/-- LLVM types, as far as the pass inspects them. -/
inductive Ty where
  | int (bits : Nat)
  | ptr (addrSpace : Nat)
  | other (tag : Nat)
  | struct (elems : List Ty)
  | array (elem : Ty) (numElements : Nat)

/-- Result of a size query: `llvm::TypeSize`. -/
structure TypeSize where
  Quantity : Nat
  Scalable : Bool

/-- Method `TypeSize::isScalable`. -/
def TypeSize.isScalable (TS : TypeSize) : Bool := TS.Scalable

/-- Method `TypeSize::getFixedValue`, also the implicit conversion to `uint64_t`. -/
def TypeSize.getFixedValue (TS : TypeSize) : Nat := TS.Quantity

/-- The Layout Oracle (`llvm::DataLayout`), supplied by the host.
`getElementOffset elems i` is `getStructLayout(ST)->getElementOffset(i)` for the struct
type with element types `elems`. -/
structure DataLayout where
  getTypeStoreSize : Ty → TypeSize
  getTypeAllocSize : Ty → TypeSize
  getElementOffset : List Ty → Nat → Nat
  getPointerSizeInBits : Nat → Nat

/-- Whether an operator node is an instruction or a constant expression. -/
inductive Form where
  | Inst
  | ConstExpr
  deriving DecidableEq

/-- Cast opcodes other than `ptrtoint` and `inttoptr`, which have value nodes of their own. -/
inductive CastOp where
  | ZExt
  | SExt
  | Trunc
  | BitCast
  | AddrSpaceCast
  | OtherCast
  deriving DecidableEq

/-- Binary opcodes. -/
inductive BinaryOp where
  | Add
  | Sub
  | OtherBinary
  deriving DecidableEq

/-- LLVM values. `ConstantInt BitWidth Val` holds the zero-extended value
(`Val < 2 ^ BitWidth`, `BitWidth ≤ 64`). `PtrToInt` records the address space of its
pointer operand type and the bit width of its integer result type. -/
inductive Value where
  | ConstantInt (BitWidth : Nat) (Val : Nat)
  | GlobalVariable (Name : String) (ValueType : Ty)
  | AllocaInst (Id : Nat) (AllocatedType : Ty) (AllocationSize : Option TypeSize)
  | GEP (form : Form) (SourceElementType : Ty) (Pointer : Value) (Indices : List Value)
  | Cast (form : Form) (Opcode : CastOp) (Operand : Value) (DestTy : Ty)
  | PtrToInt (form : Form) (Operand : Value) (PointerAddressSpace : Nat) (IntegerBitWidth : Nat)
  | IntToPtr (form : Form) (Operand : Value)
  | BinOp (form : Form) (Opcode : BinaryOp) (LHS : Value) (RHS : Value)
  | LoadInst (Pointer : Value)
  | CallInst (Callee : Option String) (Args : List Value)
  | Other (Id : Nat)

/-- What the pass reads off a `PtrToIntOperator`. -/
structure PtrToIntOperator where
  IntegerBitWidth : Nat
  PointerAddressSpace : Nat
  deriving DecidableEq

/-- Instructions of a function body, as far as the scanner distinguishes them. The type
fields are the types of the value read, written or compared. -/
inductive Instruction where
  | LoadInst (Pointer : Value) (Ty : Ty) (Volatile : Bool)
  | StoreInst (ValueOperand : Value) (ValTy : Ty) (Pointer : Value) (Volatile : Bool)
  | AtomicRMWInst (Pointer : Value) (ValOperand : Value) (ValTy : Ty) (Volatile : Bool)
  | AtomicCmpXchgInst (Pointer : Value) (CompareOperand : Value) (CmpTy : Ty)
      (NewValOperand : Value) (Volatile : Bool)
  | MemSetInst (RawDest : Value) (Val : Value) (Length : Value) (Volatile : Bool)
  | MemTransferInst (RawDest : Value) (RawSource : Value) (Length : Value) (Volatile : Bool)
  | Other (Operands : List Value)

/-- A function: its name and its instructions in program order. -/
structure Function where
  Name : String
  Instructions : List Instruction

/-- The three `cl::opt<bool>` flags (lines 24–38), all `false` by default. -/
structure Config where
  WarnRoundTrip : Bool
  WarnComputedIntToPtr : Bool
  WarnConstIntToPtrNonVolatile : Bool

/-- Flags as initialised by `cl::init(false)`. -/
def Config.default : Config := ⟨false, false, false⟩

/-- LLVM value-tracking services used by the pass. A `none` result is a null pointer. -/
structure ValueTracking where
  stripPointerCasts : Value → Value
  GetPointerBaseWithConstantOffset : Value → DataLayout → Option (Value × Int)
  getUnderlyingObject : Value → Option Value

/-- Ways in which the source leaves defined behaviour, or the model runs out of fuel. -/
inductive Fault where
  | structIndexOutOfRange
  | argOperandOutOfRange
  | fuelExhausted
  deriving DecidableEq

/-- One diagnostic. `OOB` is what `reportOOB` prints, `RoundTrip` what `reportRoundTrip`
prints; `BaseName` is the ` base=...` label, absent when none is printed. -/
inductive Finding where
  | OOB (F : String) (AccessI : Instruction) (BaseObj : Value) (BaseName : Option String)
      (Offset : Int) (ObjSize : Nat) (AccessSize : Nat)
  | RoundTrip (F : String) (AccessI : Instruction) (Kind : String) (From : Value)

/-- The category tag printed between the second pair of brackets. -/
def Finding.category : Finding → String
  | .OOB _ _ _ _ _ _ _ => "DEF-OOB"
  | .RoundTrip _ _ Kind _ => Kind

/-! ## Constants -/

/-- Method `ConstantInt::getZExtValue`. -/
def getZExtValue (_BitWidth : Nat) (Val : Nat) : Nat := Val

/-- Method `ConstantInt::getSExtValue`. -/
def getSExtValue (BitWidth : Nat) (Val : Nat) : Int :=
  if BitWidth = 0 then 0
  else if Val < 2 ^ (BitWidth - 1) then (Val : Int) else (Val : Int) - (2 : Int) ^ BitWidth

/-! ## The pass -/

/-- Lines 49–55. -/
def getFixedTypeStoreSize (Ty : Ty) (DL : DataLayout) : Option Nat :=
  let TS := DL.getTypeStoreSize Ty
  if TS.isScalable then none else some TS.getFixedValue

/-- How one iteration of the loop of `hasDefiniteSubobjectOOB` ends: a `return` with the
flag and the out-parameters, the next iteration with the new `(CurTy, Offset)`, or a
field lookup outside the struct. -/
inductive hasDefiniteSubobjectOOB.Step where
  | ret (Flag : Bool) (BadOffset : Int) (SubObjSize : Nat)
  | next (CurTy : Ty) (Offset : Int)
  | fault (e : Fault)

/-- Lines 70–102: the loop body of `hasDefiniteSubobjectOOB` at the index operand `IdxV`. -/
def hasDefiniteSubobjectOOB.body (DL : DataLayout) (CurTy : Ty) (Offset : Int) (IdxV : Value)
    (BadOffset : Int) (SubObjSize : Nat) : hasDefiniteSubobjectOOB.Step :=
  match IdxV with
  | .ConstantInt BitWidth Val =>
    let Idx : Int := getSExtValue BitWidth Val
    match CurTy with
    | .struct elems =>
      let NumElems : Int := (elems.length : Int)
      if Idx < 0 || (Idx ≥ NumElems && Idx != 0 && NumElems > 0) then
        .ret true Offset SubObjSize
      else
        match elems[Idx.toNat]? with
        | none => .fault Fault.structIndexOutOfRange
        | some FieldTy =>
          .next FieldTy (toI64 (toU64 Offset + DL.getElementOffset elems Idx.toNat))
    | .array elem numElements =>
      let NumElems : Nat := numElements
      let ElemSize : Nat := (DL.getTypeAllocSize elem).getFixedValue
      if Idx < 0 || (toU64 Idx ≥ NumElems && Idx != 0 && NumElems > 0) then
        .ret true (toI64 (toU64 Offset + toU64 Idx * ElemSize)) ((NumElems * ElemSize) % 2 ^ 64)
      else
        .next elem (toI64 (toU64 Offset + toU64 Idx * ElemSize))
    | _ => .ret false BadOffset SubObjSize
  | _ => .ret false BadOffset SubObjSize

/-- The loop of lines 69–105 of `hasDefiniteSubobjectOOB`, on the state `(CurTy, Offset)`
and the indices still to visit. The result is the returned flag with the final contents
of the two out-parameters. -/
def hasDefiniteSubobjectOOB.loop (DL : DataLayout) :
    Ty → Int → List Value → Int → Nat → Except Fault (Bool × Int × Nat)
  | _, _, [], BadOffset, SubObjSize => .ok (false, BadOffset, SubObjSize)
  | CurTy, Offset, IdxV :: rest, BadOffset, SubObjSize =>
    match hasDefiniteSubobjectOOB.body DL CurTy Offset IdxV BadOffset SubObjSize with
    | .ret Flag BadOffset1 SubObjSize1 => .ok (Flag, BadOffset1, SubObjSize1)
    | .fault e => .error e
    | .next CurTy1 Offset1 => hasDefiniteSubobjectOOB.loop DL CurTy1 Offset1 rest BadOffset SubObjSize

/-- The state `(CurTy, Offset)` with which the loop of `hasDefiniteSubobjectOOB` leaves the
given indices, when every one of them lets the loop continue (a constant, in-bounds
index at a struct or array type). -/
def hasDefiniteSubobjectOOB.reach (DL : DataLayout) : Ty → Int → List Value → Option (Ty × Int)
  | CurTy, Offset, [] => some (CurTy, Offset)
  | CurTy, Offset, IdxV :: rest =>
    match hasDefiniteSubobjectOOB.body DL CurTy Offset IdxV 0 0 with
    | .next CurTy1 Offset1 => hasDefiniteSubobjectOOB.reach DL CurTy1 Offset1 rest
    | _ => none

/-- Lines 57–106. The GEP is given by its source element type and its index operands;
`BadOffset` and `SubObjSize` are the in/out parameters. The first index is skipped. -/
def hasDefiniteSubobjectOOB (SourceElementType : Ty) (Indices : List Value) (DL : DataLayout)
    (BadOffset : Int) (SubObjSize : Nat) : Except Fault (Bool × Int × Nat) :=
  hasDefiniteSubobjectOOB.loop DL SourceElementType 0 (Indices.drop 1) BadOffset SubObjSize

/-- Lines 108–132. -/
def getKnownObjectSize (VT : ValueTracking) (Obj : Value) (DL : DataLayout) : Option Nat :=
  match VT.stripPointerCasts Obj with
  | .GlobalVariable _ ValueType =>
    let TS := DL.getTypeAllocSize ValueType
    if TS.isScalable then none else some TS.getFixedValue
  | .AllocaInst _ _ AllocationSize =>
    match AllocationSize with
    | none => none
    | some Size => if Size.isScalable then none else some Size.getFixedValue
  | _ => none

/-- Lines 134–144. -/
def isVolatileAccess : Instruction → Bool
  | .LoadInst _ _ Volatile => Volatile
  | .StoreInst _ _ _ Volatile => Volatile
  | .AtomicRMWInst _ _ _ Volatile => Volatile
  | .AtomicCmpXchgInst _ _ _ _ Volatile => Volatile
  | _ => false

/-- Lines 146–164: the diagnostic, with the base label of lines 154–158. -/
def reportOOB (F : Function) (AccessI : Instruction) (BaseObj : Value) (Offset : Int)
    (ObjSize : Nat) (AccessSize : Nat) : Finding :=
  let BaseName : Option String :=
    match BaseObj with
    | .GlobalVariable Name _ => some (" base=@" ++ Name)
    | .AllocaInst _ _ _ => some " base=%alloca"
    | _ => none
  Finding.OOB F.Name AccessI BaseObj BaseName Offset ObjSize AccessSize

/-- Lines 166–175. -/
def reportRoundTrip (F : Function) (AccessI : Instruction) (Kind : String) (From : Value) :
    Finding :=
  Finding.RoundTrip F.Name AccessI Kind From

/-- Lines 177–212. `none` is `nullptr`. -/
def findPtrToIntInIntExpr : Value → Nat → Option PtrToIntOperator
  | .Cast _ Op Operand _, Depth =>
    if Depth > 8 then none
    else if Op = CastOp.ZExt ∨ Op = CastOp.SExt ∨ Op = CastOp.Trunc then
      findPtrToIntInIntExpr Operand (Depth + 1)
    else none
  | .PtrToInt _ _ AS IntBits, Depth =>
    if Depth > 8 then none else some ⟨IntBits, AS⟩
  | .BinOp .Inst Op LHS RHS, Depth =>
    if Depth > 8 then none
    else if Op = BinaryOp.Add ∨ Op = BinaryOp.Sub then
      match LHS with
      | .ConstantInt _ _ => findPtrToIntInIntExpr RHS (Depth + 1)
      | _ =>
        match RHS with
        | .ConstantInt _ _ => findPtrToIntInIntExpr LHS (Depth + 1)
        | _ => none
    else none
  | _, _ => none

/-- Lines 214–223. -/
def pointerOperandIsIntToPtr (VT : ValueTracking) (PtrVal : Value) : Bool :=
  match VT.stripPointerCasts PtrVal with
  | .IntToPtr _ _ => true
  | _ => false

/-- Lines 225–274. -/
def analyzeIntToPtrAtDeref (cfg : Config) (VT : ValueTracking) (F : Function)
    (AccessI : Instruction) (PtrVal : Value) (DL : DataLayout) : List Finding :=
  let Root := VT.stripPointerCasts PtrVal
  let Vol := isVolatileAccess AccessI
  match Root with
  | .IntToPtr _ IntSrc =>
    let afterTrace : List Finding :=
      match IntSrc with
      | .ConstantInt _ _ =>
        if !Vol && cfg.WarnConstIntToPtrNonVolatile then
          [reportRoundTrip F AccessI "CONST-INTTOPTR" Root]
        else []
      | _ =>
        if cfg.WarnComputedIntToPtr && !Vol then
          [reportRoundTrip F AccessI "COMPUTED-INTTOPTR" Root]
        else []
    match findPtrToIntInIntExpr IntSrc 0 with
    | some PTI =>
      let IntBits := PTI.IntegerBitWidth
      let PtrBits := DL.getPointerSizeInBits PTI.PointerAddressSpace
      if IntBits < PtrBits then [reportRoundTrip F AccessI "DEF-TRUNC-ROUNDTRIP" Root]
      else if cfg.WarnRoundTrip then [reportRoundTrip F AccessI "ROUNDTRIP" Root]
      else afterTrace
    | none => afterTrace
  | _ => []

/-- Whether a value is the stack slot with the given identity: the comparison
`SI->getPointerOperand() == AI`. -/
def isAlloca (AI : Nat) : Value → Bool
  | .AllocaInst Id _ _ => Id == AI
  | _ => false

/-- Operand list of an instruction. -/
def Instruction.operands : Instruction → List Value
  | .LoadInst Pointer _ _ => [Pointer]
  | .StoreInst ValueOperand _ Pointer _ => [ValueOperand, Pointer]
  | .AtomicRMWInst Pointer ValOperand _ _ => [Pointer, ValOperand]
  | .AtomicCmpXchgInst Pointer CompareOperand _ NewValOperand _ =>
    [Pointer, CompareOperand, NewValOperand]
  | .MemSetInst RawDest Val Length _ => [RawDest, Val, Length]
  | .MemTransferInst RawDest RawSource Length _ => [RawDest, RawSource, Length]
  | .Other Operands => Operands

/-- The range `AI->users()` restricted to the instructions of `F`: one entry per use, so
an instruction that uses the slot in two operands occurs twice. -/
def users (F : Function) (AI : Nat) : List Instruction :=
  F.Instructions.flatMap fun I => (I.operands.filter (isAlloca AI)).map fun _ => I

/-- The loop `for (User *U : AI->users())` of lines 285–293 and 339–348. The outer `none`
is the early `return std::nullopt`; otherwise the result is `Stored` after the loop. -/
def storedValueLoop (AI : Nat) : List Instruction → Option Value → Option (Option Value)
  | [], Stored => some Stored
  | U :: Us, Stored =>
    match U with
    | .StoreInst ValueOperand _ Pointer _ =>
      if isAlloca AI Pointer then
        if Stored.isSome then none else storedValueLoop AI Us (some ValueOperand)
      else storedValueLoop AI Us Stored
    | _ => storedValueLoop AI Us Stored

/-- Lines 300–323 of `getHeapAllocSize`: the part after the stack-slot recovery. -/
def getHeapAllocSize.ofCall (V : Value) : Except Fault (Option Nat) :=
  match V with
  | .CallInst Callee Args =>
    match Callee with
    | none => .ok none
    | some Name =>
      if Name = "malloc" then
        match Args with
        | [] => .error Fault.argOperandOutOfRange
        | .ConstantInt BitWidth Val :: _ => .ok (some (getZExtValue BitWidth Val))
        | _ :: _ => .ok none
      else if Name = "calloc" then
        match Args with
        | N :: S :: _ =>
          match N, S with
          | .ConstantInt NBits NVal, .ConstantInt SBits SVal =>
            .ok (some ((getZExtValue NBits NVal * getZExtValue SBits SVal) % 2 ^ 64))
          | _, _ => .ok none
        | _ => .error Fault.argOperandOutOfRange
      else .ok none
  | _ => .ok none

/-- Lines 276–324. -/
def getHeapAllocSize (F : Function) (V : Value) (_DL : DataLayout) : Except Fault (Option Nat) :=
  match V with
  | .LoadInst (.AllocaInst AI _ _) =>
    match storedValueLoop AI (users F AI) none with
    | none => .ok none
    | some (some Stored) => getHeapAllocSize.ofCall Stored
    | some none => getHeapAllocSize.ofCall V
  | _ => getHeapAllocSize.ofCall V

/-- Lines 326–356. Each call consumes one unit of fuel. -/
def resolveConstantInt (F : Function) : Nat → Value → Except Fault (Option Nat)
  | 0, _ => .error Fault.fuelExhausted
  | fuel + 1, V =>
    match V with
    | .ConstantInt BitWidth Val => .ok (some (getZExtValue BitWidth Val))
    | .LoadInst (.AllocaInst AI _ _) =>
      match storedValueLoop AI (users F AI) none with
      | none => .ok none
      | some (some Stored) => resolveConstantInt F fuel Stored
      | some none => .ok none
    | _ => .ok none

/-- Lines 358–387. `none` is `false`; otherwise the out-parameters `(Ptr, Sz)`. -/
def getPtrAndSize (I : Instruction) (DL : DataLayout) : Option (Value × Nat) :=
  let withSize (ValTy : Ty) (Ptr : Value) : Option (Value × Nat) :=
    match getFixedTypeStoreSize ValTy DL with
    | none => none
    | some Sz => some (Ptr, Sz)
  match I with
  | .LoadInst Pointer Ty _ => withSize Ty Pointer
  | .StoreInst _ ValTy Pointer _ => withSize ValTy Pointer
  | .AtomicRMWInst Pointer _ ValTy _ => withSize ValTy Pointer
  | .AtomicCmpXchgInst Pointer _ CmpTy _ _ => withSize CmpTy Pointer
  | _ => none

/-- Lines 414–428 of `analyzeDefiniteOOB`: the size of the base object; `none` is the
silent `return` of line 425. -/
def analyzeDefiniteOOB.ObjSize (VT : ValueTracking) (F : Function) (Base : Value)
    (DL : DataLayout) : Except Fault (Option Nat) :=
  match Base with
  | .AllocaInst _ AllocatedType _ => .ok (some (DL.getTypeAllocSize AllocatedType).getFixedValue)
  | .GlobalVariable _ ValueType => .ok (some (DL.getTypeAllocSize ValueType).getFixedValue)
  | _ =>
    match getHeapAllocSize F Base DL with
    | .error e => .error e
    | .ok (some HeapSize) => .ok (some HeapSize)
    | .ok none => .ok (getKnownObjectSize VT Base DL)

/-- Lines 430–445 of `analyzeDefiniteOOB`: the bounds rule on a resolved base. -/
def analyzeDefiniteOOB.check (F : Function) (AccessI : Instruction) (Base : Value)
    (Offset : Int) (ObjSize : Nat) (AccessSize : Nat) : List Finding :=
  if ObjSize = 0 then []
  else if Offset < 0 || AccessSize > ObjSize then
    [reportOOB F AccessI Base Offset ObjSize AccessSize]
  else
    let UOff : Nat := toU64 Offset
    if UOff > ObjSize || AccessSize > (ObjSize + 2 ^ 64 - UOff) % 2 ^ 64 then
      [reportOOB F AccessI Base Offset ObjSize AccessSize]
    else []

/-- Lines 394–402 of `analyzeDefiniteOOB`: the subobject check, run only when the
pointer is a `GetElementPtrInst`. -/
def analyzeDefiniteOOB.subobject (PtrVal : Value) (DL : DataLayout) :
    Except Fault (Bool × Int × Nat) :=
  match PtrVal with
  | .GEP .Inst SourceElementType _ Indices => hasDefiniteSubobjectOOB SourceElementType Indices DL 0 0
  | _ => .ok (false, 0, 0)

/-- Lines 389–446. -/
def analyzeDefiniteOOB (VT : ValueTracking) (F : Function) (AccessI : Instruction)
    (PtrVal : Value) (AccessSize : Nat) (DL : DataLayout) : Except Fault (List Finding) :=
  match analyzeDefiniteOOB.subobject PtrVal DL with
  | .error e => .error e
  | .ok (true, BadOffset, SubSize) => .ok [reportOOB F AccessI PtrVal BadOffset SubSize AccessSize]
  | .ok (false, _, _) =>
    match VT.GetPointerBaseWithConstantOffset PtrVal DL with
    | none => .ok []
    | some (Base0, Offset) =>
      match VT.getUnderlyingObject Base0 with
      | none => .ok []
      | some Base =>
        match analyzeDefiniteOOB.ObjSize VT F Base DL with
        | .error e => .error e
        | .ok none => .ok []
        | .ok (some ObjSize) => .ok (analyzeDefiniteOOB.check F AccessI Base Offset ObjSize AccessSize)

/-- The round-trip step of the scanner: `if (pointerOperandIsIntToPtr(P))
analyzeIntToPtrAtDeref(F, I, P, DL);`. -/
def run.intToPtr (cfg : Config) (VT : ValueTracking) (F : Function) (I : Instruction)
    (P : Value) (DL : DataLayout) : List Finding :=
  if pointerOperandIsIntToPtr VT P then analyzeIntToPtrAtDeref cfg VT F I P DL else []

/-- Lines 457–495: the body of the scanner loop for one instruction. -/
def run.body (cfg : Config) (VT : ValueTracking) (DL : DataLayout) (F : Function) (fuel : Nat)
    (I : Instruction) : Except Fault (List Finding) :=
  match getPtrAndSize I DL with
  | some (Ptr, Sz) =>
    match analyzeDefiniteOOB VT F I Ptr Sz DL with
    | .error e => .error e
    | .ok oob => .ok (oob ++ run.intToPtr cfg VT F I Ptr DL)
  | none =>
    match I with
    | .MemSetInst Dst _ Length _ =>
      match resolveConstantInt F fuel Length with
      | .error e => .error e
      | .ok none => .ok []
      | .ok (some Len) =>
        match analyzeDefiniteOOB VT F I Dst Len DL with
        | .error e => .error e
        | .ok oob => .ok (oob ++ run.intToPtr cfg VT F I Dst DL)
    | .MemTransferInst Dst Src Length _ =>
      match resolveConstantInt F fuel Length with
      | .error e => .error e
      | .ok none => .ok []
      | .ok (some Len) =>
        match analyzeDefiniteOOB VT F I Dst Len DL with
        | .error e => .error e
        | .ok oobDst =>
          match analyzeDefiniteOOB VT F I Src Len DL with
          | .error e => .error e
          | .ok oobSrc =>
            .ok (oobDst ++ oobSrc ++ run.intToPtr cfg VT F I Dst DL ++ run.intToPtr cfg VT F I Src DL)
    | _ => .ok []

/-- The instruction loop of lines 454–497 over a list of instructions of `F`. -/
def run.loop (cfg : Config) (VT : ValueTracking) (DL : DataLayout) (F : Function) (fuel : Nat) :
    List Instruction → Except Fault (List Finding)
  | [] => .ok []
  | I :: rest =>
    match run.body cfg VT DL F fuel I with
    | .error e => .error e
    | .ok here =>
      match run.loop cfg VT DL F fuel rest with
      | .error e => .error e
      | .ok later => .ok (here ++ later)

/-- Lines 450–500: `SuspiciousPtrPass::run`. The `Bool` is `PreservedAnalyses::all()`. -/
def run (cfg : Config) (VT : ValueTracking) (DL : DataLayout) (fuel : Nat) (F : Function) :
    Except Fault (List Finding × Bool) :=
  match run.loop cfg VT DL F fuel F.Instructions with
  | .error e => .error e
  | .ok findings => .ok (findings, true)

/-! ## Vocabulary of the claims -/

/-- The value that an instruction writes directly to the stack slot `AI`: the value operand
of a store whose pointer operand is the slot itself. Only `StoreInst` counts as a write,
as in the `dyn_cast<StoreInst>` of the source. -/
def directWrite (AI : Nat) : Instruction → Option Value
  | .StoreInst ValueOperand _ Pointer _ => if isAlloca AI Pointer then some ValueOperand else none
  | _ => none

/-- The values written to the stack slot `AI` by the stores of `F` whose pointer operand is the
slot itself (its direct writes), in program order. -/
def directWrites (F : Function) (AI : Nat) : List Value :=
  F.Instructions.filterMap (directWrite AI)

/-- The single-write rule on the list of directly written values: `Stored` is taken from
the only write; a second write, or a write of the slot itself, gives up (outer `none`). -/
def afterWrites (AI : Nat) : Option Value → List Value → Option (Option Value)
  | Stored, [] => some Stored
  | Stored, w :: ws =>
    if Stored.isSome = true ∨ isAlloca AI w = true then none else afterWrites AI (some w) ws

/-- One hop of an integer expression above a value: a widening or narrowing cast
(instruction or constant expression), or an `add`/`sub` instruction whose other operand is
a constant on the left or on the right. -/
inductive Hop where
  | cast (form : Form) (Opcode : CastOp) (DestTy : Ty)
  | constLeft (Opcode : BinaryOp) (BitWidth : Nat) (Val : Nat)
  | constRight (Opcode : BinaryOp) (BitWidth : Nat) (Val : Nat)

/-- Whether the opcode of the hop is `zext`, `sext` or `trunc`, respectively `add` or `sub`. -/
def Hop.wellFormed : Hop → Bool
  | .cast _ Opcode _ => Opcode == CastOp.ZExt || Opcode == CastOp.SExt || Opcode == CastOp.Trunc
  | .constLeft Opcode _ _ => Opcode == BinaryOp.Add || Opcode == BinaryOp.Sub
  | .constRight Opcode _ _ => Opcode == BinaryOp.Add || Opcode == BinaryOp.Sub

/-- The value one hop above `V`. -/
def Hop.apply : Hop → Value → Value
  | .cast form Opcode DestTy, V => .Cast form Opcode V DestTy
  | .constLeft Opcode BitWidth Val, V => .BinOp .Inst Opcode (.ConstantInt BitWidth Val) V
  | .constRight Opcode BitWidth Val, V => .BinOp .Inst Opcode V (.ConstantInt BitWidth Val)

/-- The value that lies the given hops (outermost first) above `Origin` in a straight chain. -/
def chainAbove (Origin : Value) : List Hop → Value
  | [] => Origin
  | H :: Hs => H.apply (chainAbove Origin Hs)

/-- Whether a value is a `ConstantInt`. -/
def isConstantInt : Value → Bool
  | .ConstantInt _ _ => true
  | _ => false

/-- The rule of LLVM for the indices of a `getelementptr` after the first
(`GetElementPtrInst::getIndexedType`, `StructType::indexValid`), as far as it concerns
structs: at a struct type the index is a constant that selects one of the fields, and the
walk goes on in the type of that field; at an array type it goes on in the element type.
Indices at other types are not restricted here. -/
def structIndicesValid : Ty → List Value → Bool
  | _, [] => true
  | .struct elems, IdxV :: rest =>
    match IdxV with
    | .ConstantInt BitWidth Val =>
      if 0 ≤ getSExtValue BitWidth Val then
        match elems[(getSExtValue BitWidth Val).toNat]? with
        | some FieldTy => structIndicesValid FieldTy rest
        | none => false
      else false
    | _ => false
  | .array elem _, _ :: rest => structIndicesValid elem rest
  | _, _ :: _ => true

/-- The volatile attribute that a memory instruction carries (`isVolatile()`), bulk
operations included. -/
def Instruction.isVolatile : Instruction → Bool
  | .LoadInst _ _ Volatile => Volatile
  | .StoreInst _ _ _ Volatile => Volatile
  | .AtomicRMWInst _ _ _ Volatile => Volatile
  | .AtomicCmpXchgInst _ _ _ _ Volatile => Volatile
  | .MemSetInst _ _ _ Volatile => Volatile
  | .MemTransferInst _ _ _ Volatile => Volatile
  | .Other _ => false

/-- Whether an instruction is a bulk-fill or a bulk-copy. -/
def Instruction.isBulk : Instruction → Bool
  | .MemSetInst _ _ _ _ => true
  | .MemTransferInst _ _ _ _ => true
  | _ => false

/-! ## A reference host

The theorems below hold for every `DataLayout` and every `ValueTracking`. To run the pass
on concrete programs, the following instance follows what LLVM documents for the helpers
on the value kinds of this model: a layout without padding and with 64-bit pointers,
`stripPointerCasts` removing bitcasts, address-space casts and all-zero GEPs,
`GetPointerBaseWithConstantOffset` folding GEPs with constant indices, and
`getUnderlyingObject` looking through at most six GEPs and casts. -/

mutual
/-- Size in bytes of a type laid out without padding. -/
def packedSize : Ty → Nat
  | .int bits => (bits + 7) / 8
  | .ptr _ => 8
  | .other _ => 0
  | .struct elems => packedSizeList elems
  | .array elem numElements => numElements * packedSize elem
/-- Total size of a list of types laid out without padding. -/
def packedSizeList : List Ty → Nat
  | [] => 0
  | T :: Ts => packedSize T + packedSizeList Ts
end

/-- Layout oracle of the reference host. -/
def packedDL : DataLayout where
  getTypeStoreSize := fun T => ⟨packedSize T, false⟩
  getTypeAllocSize := fun T => ⟨packedSize T, false⟩
  getElementOffset := fun elems i => packedSizeList (elems.take i)
  getPointerSizeInBits := fun _ => 64

/-- Whether an index operand is the constant zero. -/
def isZeroIndex : Value → Bool
  | .ConstantInt _ Val => Val == 0
  | _ => false

/-- Reference `Value::stripPointerCasts`. -/
def refStripPointerCasts : Value → Value
  | .Cast form Op Operand DestTy =>
    if Op = CastOp.BitCast ∨ Op = CastOp.AddrSpaceCast then refStripPointerCasts Operand
    else .Cast form Op Operand DestTy
  | .GEP form SourceElementType Pointer Indices =>
    if Indices.all isZeroIndex then refStripPointerCasts Pointer
    else .GEP form SourceElementType Pointer Indices
  | V => V

/-- Byte offset of constant indices applied to a type, after the first index. -/
def refIndexOffset (DL : DataLayout) : Ty → List Value → Option Int
  | _, [] => some 0
  | CurTy, IdxV :: rest =>
    match IdxV, CurTy with
    | .ConstantInt BitWidth Val, .struct elems =>
      match elems[(getSExtValue BitWidth Val).toNat]? with
      | some FieldTy =>
        (refIndexOffset DL FieldTy rest).map
          fun o => (DL.getElementOffset elems (getSExtValue BitWidth Val).toNat : Int) + o
      | none => none
    | .ConstantInt BitWidth Val, .array elem _ =>
      (refIndexOffset DL elem rest).map
        fun o => getSExtValue BitWidth Val * ((DL.getTypeAllocSize elem).getFixedValue : Int) + o
    | _, _ => none

/-- Byte offset of a GEP whose indices are all constant. -/
def refGEPOffset (DL : DataLayout) (SourceElementType : Ty) : List Value → Option Int
  | .ConstantInt BitWidth Val :: rest =>
    (refIndexOffset DL SourceElementType rest).map
      fun o => getSExtValue BitWidth Val * ((DL.getTypeAllocSize SourceElementType).getFixedValue : Int) + o
  | _ => none

/-- Reference `GetPointerBaseWithConstantOffset`, as base and accumulated offset. -/
def refBaseWithConstantOffset (DL : DataLayout) : Value → Value × Int
  | .Cast form Op Operand DestTy =>
    if Op = CastOp.BitCast ∨ Op = CastOp.AddrSpaceCast then refBaseWithConstantOffset DL Operand
    else (.Cast form Op Operand DestTy, 0)
  | .GEP form SourceElementType Pointer Indices =>
    match refGEPOffset DL SourceElementType Indices with
    | some o =>
      let r := refBaseWithConstantOffset DL Pointer
      (r.1, toI64 (toU64 (r.2 + o)))
    | none => (.GEP form SourceElementType Pointer Indices, 0)
  | V => (V, 0)

/-- Reference `getUnderlyingObject` with its lookup bound. -/
def refUnderlyingObject : Nat → Value → Value
  | 0, V => V
  | MaxLookup + 1, .GEP _ _ Pointer _ => refUnderlyingObject MaxLookup Pointer
  | MaxLookup + 1, .Cast form Op Operand DestTy =>
    if Op = CastOp.BitCast ∨ Op = CastOp.AddrSpaceCast then refUnderlyingObject MaxLookup Operand
    else .Cast form Op Operand DestTy
  | _ + 1, V => V

/-- Value-tracking services of the reference host. -/
def refVT : ValueTracking where
  stripPointerCasts := refStripPointerCasts
  GetPointerBaseWithConstantOffset := fun V DL => some (refBaseWithConstantOffset DL V)
  getUnderlyingObject := fun V => some (refUnderlyingObject 6 V)

/-! ## Concrete programs -/

/-- A global array of four one-byte elements. -/
def exGlobal4 : Value := .GlobalVariable "g" (.array (.int 8) 4)

/-- A global array of zero one-byte elements: an object of size zero. -/
def exGlobal0 : Value := .GlobalVariable "vla" (.array (.int 8) 0)

/-- A function without stores to stack slots. -/
def exFn : Function := ⟨"f", []⟩

/-- A non-volatile one-byte load through the given pointer. -/
def exLoad (P : Value) : Instruction := .LoadInst P (.int 8) false

/-- The 64-bit constant with the given zero-extended value. -/
def exConst (Val : Nat) : Value := .ConstantInt 64 Val

/-- The constant expression `getelementptr i8, ptr P, i64 Val`. -/
def exByteGEP (P : Value) (Val : Nat) : Value := .GEP .ConstExpr (.int 8) P [exConst Val]

/-- The instruction `getelementptr [4 x i8], ptr @g, i64 0, i64 Val`. -/
def exArrayGEP (Val : Nat) : Value :=
  .GEP .Inst (.array (.int 8) 4) exGlobal4 [exConst 0, exConst Val]

/-- Stack slot number 1, holding a 64-bit integer. -/
def exSlotA : Value := .AllocaInst 1 (.int 64) (some ⟨8, false⟩)

/-- Stack slot number 2, holding a 64-bit integer. -/
def exSlotB : Value := .AllocaInst 2 (.int 64) (some ⟨8, false⟩)

/-- The function `%0 = load i64, ptr %a`, `store i64 %0, ptr %a`,
`call void @llvm.memset(ptr @g, i8 0, i64 %0, i1 false)`: every result is defined before it is
used, and the slot is read before it is written. -/
def exSelfStoreFn : Function :=
  ⟨"self_store",
    [.LoadInst exSlotA (.int 64) false,
     .StoreInst (.LoadInst exSlotA) (.int 64) exSlotA false,
     .MemSetInst exGlobal4 (.ConstantInt 8 0) (.LoadInst exSlotA) false]⟩

/-- The function `store i64 5, ptr %b`, `%0 = load i64, ptr %b`, `store i64 %0, ptr %a`,
`%1 = load i64, ptr %a`, `call void @llvm.memset(ptr @g, i8 0, i64 %1, i1 false)`. -/
def exTwoSlotFn : Function :=
  ⟨"two_slots",
    [.StoreInst (exConst 5) (.int 64) exSlotB false,
     .LoadInst exSlotB (.int 64) false,
     .StoreInst (.LoadInst exSlotB) (.int 64) exSlotA false,
     .LoadInst exSlotA (.int 64) false,
     .MemSetInst exGlobal4 (.ConstantInt 8 0) (.LoadInst exSlotA) false]⟩

/-- The call `calloc(i64 9223372036854775810, i64 2)`, whose product is 2^64 + 4. -/
def exCallocWrap : Value :=
  .CallInst (some "calloc") [exConst (2 ^ 63 + 2), exConst 2]

/-- The pointer `inttoptr (i64 4096 to ptr)`. -/
def exConstAddr : Value := .IntToPtr .ConstExpr (exConst 4096)

/-- The pointer `inttoptr i64 %x to ptr` for a function argument `%x`. -/
def exComputedAddr : Value := .IntToPtr .Inst (.Other 7)

/-- The constant expression `add (ptrtoint (ptr @g to i32), i32 4)`. -/
def exConstExprAdd : Value :=
  .BinOp .ConstExpr .Add (.PtrToInt .ConstExpr exGlobal4 0 32) (.ConstantInt 32 4)

/-- The instruction `add i32 ptrtoint (ptr @g to i32), 4`. -/
def exInstAdd : Value :=
  .BinOp .Inst .Add (.PtrToInt .ConstExpr exGlobal4 0 32) (.ConstantInt 32 4)

/-- A converted value fits in 64 bits. -/
theorem toU64_lt (x : Int) : toU64 x < 2 ^ 64 := by
  unfold toU64
  omega

/-- The unsigned conversion is reduction modulo 2^64. -/
theorem toU64_cast (x : Int) : ((toU64 x : Nat) : Int) = x % (2 : Int) ^ 64 := by
  unfold toU64
  omega

/-- The signed conversion preserves the value modulo 2^64. -/
theorem toI64_emod (n : Nat) : toI64 n % (2 : Int) ^ 64 = (n : Int) % (2 : Int) ^ 64 := by
  unfold toI64
  split <;> omega

/-- The signed conversion lands in the `int64_t` range. -/
theorem toI64_range (n : Nat) : -(2 : Int) ^ 63 ≤ toI64 n ∧ toI64 n < (2 : Int) ^ 63 := by
  unfold toI64
  split <;> omega

/-- The bounds rule of lines 430–445 in unbounded integers: with a non-zero object size,
the access is flagged exactly when it starts before the object or ends after it. -/
theorem check_eq (F : Function) (AccessI : Instruction) (Base : Value) (O : Int) (Z A : Nat)
    (hZ0 : Z ≠ 0) (hZ : Z < 2 ^ 64) (hA : A < 2 ^ 64) (hO : O < (2 : Int) ^ 63) :
    analyzeDefiniteOOB.check F AccessI Base O Z A =
      if O < 0 ∨ (Z : Int) < O + (A : Int) then [reportOOB F AccessI Base O Z A] else [] := by
  unfold analyzeDefiniteOOB.check
  rw [if_neg hZ0]
  by_cases h1 : O < 0
  · simp [h1]
  · by_cases h2 : A > Z
    · have : (Z : Int) < O + (A : Int) := by omega
      simp [h2, this]
    · have hu : toU64 O = O.toNat := by unfold toU64; omega
      have hm : (Z + 2 ^ 64 - O.toNat) % 2 ^ 64 = if O.toNat ≤ Z then Z - O.toNat else Z + 2 ^ 64 - O.toNat := by
        split <;> omega
      simp only [hu, hm, h1, h2, decide_False, Bool.false_or, Bool.or_eq_true, decide_eq_true_eq, false_or]
      by_cases h3 : O.toNat > Z
      · have : (Z : Int) < O + (A : Int) := by omega
        simp [h3, this]
      · have h4 : O.toNat ≤ Z := by omega
        by_cases h5 : (Z : Int) < O + (A : Int)
        · have : A > Z - O.toNat := by omega
          simp [h3, h4, h5, this]
        · have : ¬ A > Z - O.toNat := by omega
          simp [h3, h4, h5, this]

/-! ## Bounds resolver (claims C1, C2) -/

/-- Claim C1. In `analyzeDefiniteOOB`, when the subobject checker does not flag the pointer
and the base resolves to an object of known size `Z ≠ 0`, then for every signed 64-bit
offset `O` and unsigned 64-bit access size `A` the result is the single `DEF-OOB` report
on the base if `O < 0` or `O + A > Z` in unbounded integers, and no finding otherwise. -/
theorem analyzeDefiniteOOB_flags_iff_outside (VT : ValueTracking) (DL : DataLayout)
    (F : Function) (AccessI : Instruction) (PtrVal Base0 Base : Value) (O : Int) (Z A : Nat)
    (hsub : ∃ BadOffset SubSize, analyzeDefiniteOOB.subobject PtrVal DL = .ok (false, BadOffset, SubSize))
    (hbase : VT.GetPointerBaseWithConstantOffset PtrVal DL = some (Base0, O))
    (hobj : VT.getUnderlyingObject Base0 = some Base)
    (hsize : analyzeDefiniteOOB.ObjSize VT F Base DL = .ok (some Z))
    (hZ0 : Z ≠ 0) (hZ : Z < 2 ^ 64) (hA : A < 2 ^ 64)
    (hO : -(2 : Int) ^ 63 ≤ O ∧ O < (2 : Int) ^ 63) :
    analyzeDefiniteOOB VT F AccessI PtrVal A DL =
        .ok (if O < 0 ∨ (Z : Int) < O + (A : Int) then [reportOOB F AccessI Base O Z A] else []) ∧
      ((∃ fs, analyzeDefiniteOOB VT F AccessI PtrVal A DL = .ok fs ∧
          ∃ f ∈ fs, f.category = "DEF-OOB") ↔ (O < 0 ∨ (Z : Int) < O + (A : Int))) := by
  obtain ⟨bo, ss, hsub⟩ := hsub
  have hmain : analyzeDefiniteOOB VT F AccessI PtrVal A DL =
      .ok (if O < 0 ∨ (Z : Int) < O + (A : Int) then [reportOOB F AccessI Base O Z A] else []) := by
    unfold analyzeDefiniteOOB
    rw [hsub]
    simp only [hbase, hobj, hsize]
    rw [check_eq F AccessI Base O Z A hZ0 hZ hA hO.2]
  refine ⟨hmain, ?_⟩
  rw [hmain]
  by_cases hc : O < 0 ∨ (Z : Int) < O + (A : Int)
  · simp [hc, reportOOB, Finding.category]
  · simp [hc]

/-- Witness for claim C1: a one-byte load at offset 2 of the four-byte global is in bounds,
so nothing is reported. -/
theorem analyzeDefiniteOOB_flags_iff_outside_witness :
    analyzeDefiniteOOB refVT exFn (exLoad (exByteGEP exGlobal4 2)) (exByteGEP exGlobal4 2) 1 packedDL =
        .ok (if (2 : Int) < 0 ∨ ((4 : Nat) : Int) < 2 + ((1 : Nat) : Int) then
          [reportOOB exFn (exLoad (exByteGEP exGlobal4 2)) exGlobal4 2 4 1] else []) ∧
      ((∃ fs, analyzeDefiniteOOB refVT exFn (exLoad (exByteGEP exGlobal4 2)) (exByteGEP exGlobal4 2) 1 packedDL = .ok fs ∧
          ∃ f ∈ fs, f.category = "DEF-OOB") ↔ ((2 : Int) < 0 ∨ ((4 : Nat) : Int) < 2 + ((1 : Nat) : Int))) :=
  analyzeDefiniteOOB_flags_iff_outside refVT packedDL exFn (exLoad (exByteGEP exGlobal4 2))
    (exByteGEP exGlobal4 2) exGlobal4 exGlobal4 2 4 1 ⟨0, 0, rfl⟩ rfl rfl rfl (by decide)
    (by norm_num) (by norm_num) (by norm_num)

/-- Counterexample to claim C2 as stated: a one-byte load at offset `-1` of a global of
size zero. The pointer decomposes to the global and offset `-1`, the object size
resolves to `0`, and `analyzeDefiniteOOB` reports nothing. -/
theorem negative_offset_of_zero_size_object_not_flagged :
    refVT.GetPointerBaseWithConstantOffset (exByteGEP exGlobal0 (2 ^ 64 - 1)) packedDL =
        some (exGlobal0, -1) ∧
      refVT.getUnderlyingObject exGlobal0 = some exGlobal0 ∧
      analyzeDefiniteOOB.ObjSize refVT exFn exGlobal0 packedDL = .ok (some 0) ∧
      analyzeDefiniteOOB refVT exFn (exLoad (exByteGEP exGlobal0 (2 ^ 64 - 1)))
        (exByteGEP exGlobal0 (2 ^ 64 - 1)) 1 packedDL = .ok [] :=
  ⟨rfl, rfl, rfl, rfl⟩

/-- Claim C2, amended. When the pointer decomposes to a base and a constant offset `O < 0`,
the base resolves to an object size `Z`, and the subobject walk completes, then for every
`Z ≠ 0` `analyzeDefiniteOOB` emits exactly one finding, of category `DEF-OOB` (the report
on the base with offset `O` unless the subobject checker has flagged the pointer); for
`Z = 0` the check on the base emits nothing. -/
theorem analyzeDefiniteOOB_negative_offset (VT : ValueTracking) (DL : DataLayout)
    (F : Function) (AccessI : Instruction) (PtrVal Base0 Base : Value) (O : Int) (Z A : Nat)
    (Flag : Bool) (BadOffset : Int) (SubSize : Nat)
    (hsub : analyzeDefiniteOOB.subobject PtrVal DL = .ok (Flag, BadOffset, SubSize))
    (hbase : VT.GetPointerBaseWithConstantOffset PtrVal DL = some (Base0, O))
    (hobj : VT.getUnderlyingObject Base0 = some Base)
    (hsize : analyzeDefiniteOOB.ObjSize VT F Base DL = .ok (some Z))
    (hO : O < 0) :
    (Z ≠ 0 → ∃ f, analyzeDefiniteOOB VT F AccessI PtrVal A DL = .ok [f] ∧ f.category = "DEF-OOB" ∧
        (Flag = false → f = reportOOB F AccessI Base O Z A)) ∧
      (Z = 0 → Flag = false → analyzeDefiniteOOB VT F AccessI PtrVal A DL = .ok []) := by
  cases Flag with
  | true =>
    refine ⟨fun _ => ⟨reportOOB F AccessI PtrVal BadOffset SubSize A, ?_, rfl, ?_⟩, ?_⟩
    · unfold analyzeDefiniteOOB
      rw [hsub]
    · intro h; cases h
    · intro _ h; cases h
  | false =>
    have hrun : analyzeDefiniteOOB VT F AccessI PtrVal A DL =
        .ok (analyzeDefiniteOOB.check F AccessI Base O Z A) := by
      unfold analyzeDefiniteOOB
      rw [hsub]
      simp only [hbase, hobj, hsize]
    refine ⟨fun hZ0 => ⟨reportOOB F AccessI Base O Z A, ?_, rfl, fun _ => rfl⟩, ?_⟩
    · rw [hrun]
      simp [analyzeDefiniteOOB.check, hZ0, hO]
    · intro hZ _
      rw [hrun]
      simp [analyzeDefiniteOOB.check, hZ]

/-- Witness for the amended claim C2: a one-byte load at offset `-1` of the four-byte global. -/
theorem analyzeDefiniteOOB_negative_offset_witness :
    (4 ≠ 0 → ∃ f, analyzeDefiniteOOB refVT exFn (exLoad (exByteGEP exGlobal4 (2 ^ 64 - 1)))
          (exByteGEP exGlobal4 (2 ^ 64 - 1)) 1 packedDL = .ok [f] ∧ f.category = "DEF-OOB" ∧
        (false = false → f = reportOOB exFn (exLoad (exByteGEP exGlobal4 (2 ^ 64 - 1))) exGlobal4 (-1) 4 1)) ∧
      (4 = 0 → false = false → analyzeDefiniteOOB refVT exFn (exLoad (exByteGEP exGlobal4 (2 ^ 64 - 1)))
          (exByteGEP exGlobal4 (2 ^ 64 - 1)) 1 packedDL = .ok []) :=
  analyzeDefiniteOOB_negative_offset refVT packedDL exFn (exLoad (exByteGEP exGlobal4 (2 ^ 64 - 1)))
    (exByteGEP exGlobal4 (2 ^ 64 - 1)) exGlobal4 exGlobal4 (-1) 4 1 false 0 0 rfl rfl rfl rfl (by decide)

/-! ## Subobject bounds checker (claims C3, C4) -/

/-- Whether an iteration continues, and with which state, does not depend on the
out-parameters. -/
theorem body_next_irrel (DL : DataLayout) (CurTy : Ty) (Offset : Int) (IdxV : Value)
    (bo : Int) (ss : Nat) (T : Ty) (O : Int)
    (h : hasDefiniteSubobjectOOB.body DL CurTy Offset IdxV 0 0 = .next T O) :
    hasDefiniteSubobjectOOB.body DL CurTy Offset IdxV bo ss = .next T O := by
  unfold hasDefiniteSubobjectOOB.body at h ⊢
  cases IdxV <;> first | cases h | skip
  cases CurTy <;> first | cases h | skip
  · dsimp only at h ⊢
    split at h
    · cases h
    · rename_i hc
      rw [if_neg hc]
      exact h
  · dsimp only at h ⊢
    split at h
    · cases h
    · rename_i hc
      rw [if_neg hc]
      exact h

/-- The walk over `pre ++ rest` continues on `rest` from the state reached after `pre`. -/
theorem loop_append_of_reach (DL : DataLayout) (pre rest : List Value) (bo : Int) (ss : Nat) :
    ∀ (T0 : Ty) (O0 : Int) (T : Ty) (P : Int),
      hasDefiniteSubobjectOOB.reach DL T0 O0 pre = some (T, P) →
      hasDefiniteSubobjectOOB.loop DL T0 O0 (pre ++ rest) bo ss =
        hasDefiniteSubobjectOOB.loop DL T P rest bo ss := by
  induction pre with
  | nil =>
    intro T0 O0 T P h
    simp only [hasDefiniteSubobjectOOB.reach, Option.some.injEq, Prod.mk.injEq] at h
    obtain ⟨h1, h2⟩ := h
    subst h1 h2
    rfl
  | cons i pre ih =>
    intro T0 O0 T P h
    unfold hasDefiniteSubobjectOOB.reach at h
    cases hb : hasDefiniteSubobjectOOB.body DL T0 O0 i 0 0 with
    | ret a b c => rw [hb] at h; cases h
    | fault e => rw [hb] at h; cases h
    | next T1 O1 =>
      rw [hb] at h
      simp only [List.cons_append, hasDefiniteSubobjectOOB.loop]
      rw [body_next_irrel DL T0 O0 i bo ss T1 O1 hb]
      exact ih T1 O1 T P h

/-- A continuing step leads to the type in which LLVM's rule goes on. -/
theorem structIndicesValid_step (DL : DataLayout) (T0 : Ty) (O0 : Int) (IdxV : Value)
    (bo : Int) (ss : Nat) (T1 : Ty) (O1 : Int) (l : List Value)
    (hb : hasDefiniteSubobjectOOB.body DL T0 O0 IdxV bo ss = .next T1 O1)
    (hv : structIndicesValid T0 (IdxV :: l) = true) : structIndicesValid T1 l = true := by
  unfold hasDefiniteSubobjectOOB.body at hb
  cases IdxV <;> first | cases hb | skip
  cases T0 <;> first | cases hb | skip
  · rename_i BitWidth Val elems
    dsimp only at hb
    split at hb
    · cases hb
    · cases hl : elems[(getSExtValue BitWidth Val).toNat]? with
      | none => rw [hl] at hb; cases hb
      | some FieldTy =>
        rw [hl] at hb
        simp only [hasDefiniteSubobjectOOB.Step.next.injEq] at hb
        obtain ⟨h1, _⟩ := hb
        subst h1
        simp only [structIndicesValid, hl] at hv
        split at hv
        · exact hv
        · cases hv
  · rename_i BitWidth Val elem n
    dsimp only at hb
    split at hb
    · cases hb
    · simp only [hasDefiniteSubobjectOOB.Step.next.injEq] at hb
      obtain ⟨h1, _⟩ := hb
      subst h1
      simpa [structIndicesValid] using hv

/-- LLVM's rule on an index list holds for what remains after the steps that the walk has
taken. -/
theorem structIndicesValid_of_reach (DL : DataLayout) (pre rest : List Value) :
    ∀ (T0 : Ty) (O0 : Int) (T : Ty) (O : Int),
      hasDefiniteSubobjectOOB.reach DL T0 O0 pre = some (T, O) →
      structIndicesValid T0 (pre ++ rest) = true → structIndicesValid T rest = true := by
  induction pre with
  | nil =>
    intro T0 O0 T O h hv
    simp only [hasDefiniteSubobjectOOB.reach, Option.some.injEq, Prod.mk.injEq] at h
    obtain ⟨h1, _⟩ := h
    subst h1
    exact hv
  | cons i pre ih =>
    intro T0 O0 T O h hv
    unfold hasDefiniteSubobjectOOB.reach at h
    cases hb : hasDefiniteSubobjectOOB.body DL T0 O0 i 0 0 with
    | ret a b c => rw [hb] at h; cases h
    | fault e => rw [hb] at h; cases h
    | next T1 O1 =>
      rw [hb] at h
      exact ih T1 O1 T O h (structIndicesValid_step DL T0 O0 i 0 0 T1 O1 (pre ++ rest) hb hv)

/-- Claim C4. In `hasDefiniteSubobjectOOB`, when an array type with element count `C > 0` and
element size `S` is reached with accumulated offset `P` after only constant, in-bounds
earlier steps, a constant index `i ≥ C` makes the walk return a violation whose
`BadOffset` is `P + i * S` modulo 2^64 read as a signed 64-bit value and whose
`SubObjSize` is `C * S` modulo 2^64; the `DEF-OOB` finding carries these two values. -/
theorem array_step_beyond_count_flagged (VT : ValueTracking) (DL : DataLayout) (F : Function)
    (AccessI : Instruction) (SrcTy : Ty) (Ptr first : Value) (pre rest : List Value)
    (elem : Ty) (C : Nat) (P : Int) (BitWidth Val A : Nat)
    (hreach : hasDefiniteSubobjectOOB.reach DL SrcTy 0 pre = some (.array elem C, P))
    (hC : 0 < C)
    (hi : (C : Int) ≤ getSExtValue BitWidth Val)
    (hi64 : getSExtValue BitWidth Val < (2 : Int) ^ 63) :
    ∃ BadOffset SubObjSize,
      hasDefiniteSubobjectOOB SrcTy (first :: (pre ++ .ConstantInt BitWidth Val :: rest)) DL 0 0 =
          .ok (true, BadOffset, SubObjSize) ∧
        BadOffset % (2 : Int) ^ 64 =
          (P + getSExtValue BitWidth Val * ((DL.getTypeAllocSize elem).getFixedValue : Int)) % (2 : Int) ^ 64 ∧
        (-(2 : Int) ^ 63 ≤ BadOffset ∧ BadOffset < (2 : Int) ^ 63) ∧
        SubObjSize = (C * (DL.getTypeAllocSize elem).getFixedValue) % 2 ^ 64 ∧
        analyzeDefiniteOOB VT F AccessI
            (.GEP .Inst SrcTy Ptr (first :: (pre ++ .ConstantInt BitWidth Val :: rest))) A DL =
          .ok [Finding.OOB F.Name AccessI
            (.GEP .Inst SrcTy Ptr (first :: (pre ++ .ConstantInt BitWidth Val :: rest))) none
            BadOffset SubObjSize A] := by
  have hwalk : hasDefiniteSubobjectOOB SrcTy (first :: (pre ++ .ConstantInt BitWidth Val :: rest)) DL 0 0 =
      .ok (true, toI64 (toU64 P + toU64 (getSExtValue BitWidth Val) * (DL.getTypeAllocSize elem).getFixedValue),
        (C * (DL.getTypeAllocSize elem).getFixedValue) % 2 ^ 64) := by
    unfold hasDefiniteSubobjectOOB
    simp only [List.drop_succ_cons, List.drop_zero]
    rw [loop_append_of_reach DL pre _ 0 0 SrcTy 0 _ P hreach]
    have hne : getSExtValue BitWidth Val ≠ 0 := by omega
    have hu : C ≤ toU64 (getSExtValue BitWidth Val) := by unfold toU64; omega
    simp [hasDefiniteSubobjectOOB.loop, hasDefiniteSubobjectOOB.body, hne, hu, hC]
  refine ⟨_, _, hwalk, ?_, toI64_range _, rfl, ?_⟩
  · rw [toI64_emod, Nat.cast_add, Nat.cast_mul, toU64_cast, toU64_cast]
    exact Int.ModEq.add (Int.mod_modEq P _) (Int.ModEq.mul_right _ (Int.mod_modEq _ _))
  · unfold analyzeDefiniteOOB analyzeDefiniteOOB.subobject
    simp only [hwalk]
    rfl

/-- Witness for claim C4: index 6 into the array of four one-byte elements. -/
theorem array_step_beyond_count_flagged_witness :
    ∃ BadOffset SubObjSize,
      hasDefiniteSubobjectOOB (.array (.int 8) 4) (exConst 0 :: ([] ++ .ConstantInt 64 6 :: [])) packedDL 0 0 =
          .ok (true, BadOffset, SubObjSize) ∧
        BadOffset % (2 : Int) ^ 64 =
          (0 + getSExtValue 64 6 * ((packedDL.getTypeAllocSize (.int 8)).getFixedValue : Int)) % (2 : Int) ^ 64 ∧
        (-(2 : Int) ^ 63 ≤ BadOffset ∧ BadOffset < (2 : Int) ^ 63) ∧
        SubObjSize = (4 * (packedDL.getTypeAllocSize (.int 8)).getFixedValue) % 2 ^ 64 ∧
        analyzeDefiniteOOB refVT exFn (exLoad exGlobal4)
            (.GEP .Inst (.array (.int 8) 4) exGlobal4 (exConst 0 :: ([] ++ .ConstantInt 64 6 :: []))) 1 packedDL =
          .ok [Finding.OOB exFn.Name (exLoad exGlobal4)
            (.GEP .Inst (.array (.int 8) 4) exGlobal4 (exConst 0 :: ([] ++ .ConstantInt 64 6 :: []))) none
            BadOffset SubObjSize 1] :=
  array_step_beyond_count_flagged refVT packedDL exFn (exLoad exGlobal4) (.array (.int 8) 4)
    exGlobal4 (exConst 0) [] [] (.int 8) 4 0 64 6 1 rfl (by decide) (by decide) (by decide)

/-! ## End-to-end example and round-trip classifier (claims C5 to C8) -/

/-- Claim C5 at a failing input: a one-byte load through the instruction
`getelementptr [4 x i8], ptr @g, i64 0, i64 5`. The scanner yields exactly one finding, of
category `DEF-OOB`, with offset 5 and object size 4, but the base value it carries is the
addressing expression, not the global, and no ` base=@g` label is printed. Through the
constant-expression form of the same address the base is resolved and the global is
named. -/
theorem global_array_gep_finding_carries_gep :
    run.body Config.default refVT packedDL exFn 1 (exLoad (exArrayGEP 5)) =
        .ok [Finding.OOB "f" (exLoad (exArrayGEP 5)) (exArrayGEP 5) none 5 4 1] ∧
      run.body Config.default refVT packedDL exFn 1
          (exLoad (.GEP .ConstExpr (.array (.int 8) 4) exGlobal4 [exConst 0, exConst 5])) =
        .ok [Finding.OOB "f"
          (exLoad (.GEP .ConstExpr (.array (.int 8) 4) exGlobal4 [exConst 0, exConst 5]))
          exGlobal4 (some " base=@g") 5 4 1] :=
  ⟨rfl, rfl⟩

/-- A constant integer is not traced to any pointer-to-integer conversion. -/
theorem findPtrToIntInIntExpr_ConstantInt (BitWidth Val Depth : Nat) :
    findPtrToIntInIntExpr (.ConstantInt BitWidth Val) Depth = none := by
  unfold findPtrToIntInIntExpr
  rfl

/-- The guard `pointerOperandIsIntToPtr` of the scanner never changes the findings of
`analyzeIntToPtrAtDeref`. -/
theorem run_intToPtr_eq (cfg : Config) (VT : ValueTracking) (F : Function) (I : Instruction)
    (P : Value) (DL : DataLayout) :
    run.intToPtr cfg VT F I P DL = analyzeIntToPtrAtDeref cfg VT F I P DL := by
  unfold run.intToPtr pointerOperandIsIntToPtr analyzeIntToPtrAtDeref
  cases h : VT.stripPointerCasts P <;> simp

/-- The classifier on a round-trip whose pointer-to-integer conversion is narrower than
the pointer. -/
theorem intToPtr_narrow (cfg : Config) (VT : ValueTracking) (DL : DataLayout)
    (F : Function) (AccessI : Instruction) (PtrVal IntSrc : Value) (form : Form)
    (PTI : PtrToIntOperator)
    (hroot : VT.stripPointerCasts PtrVal = .IntToPtr form IntSrc)
    (htrace : findPtrToIntInIntExpr IntSrc 0 = some PTI)
    (hnarrow : PTI.IntegerBitWidth < DL.getPointerSizeInBits PTI.PointerAddressSpace) :
    analyzeIntToPtrAtDeref cfg VT F AccessI PtrVal DL =
      [Finding.RoundTrip F.Name AccessI "DEF-TRUNC-ROUNDTRIP" (.IntToPtr form IntSrc)] := by
  unfold analyzeIntToPtrAtDeref
  simp only [hroot, htrace, hnarrow, if_true, reportRoundTrip]

/-- The classifier on a round-trip whose pointer-to-integer conversion is at least as wide
as the pointer. -/
theorem intToPtr_wide (cfg : Config) (VT : ValueTracking) (DL : DataLayout)
    (F : Function) (AccessI : Instruction) (PtrVal IntSrc : Value) (form : Form)
    (PTI : PtrToIntOperator)
    (hroot : VT.stripPointerCasts PtrVal = .IntToPtr form IntSrc)
    (htrace : findPtrToIntInIntExpr IntSrc 0 = some PTI)
    (hwide : DL.getPointerSizeInBits PTI.PointerAddressSpace ≤ PTI.IntegerBitWidth) :
    analyzeIntToPtrAtDeref cfg VT F AccessI PtrVal DL =
      (if cfg.WarnRoundTrip = true then
        [Finding.RoundTrip F.Name AccessI "ROUNDTRIP" (.IntToPtr form IntSrc)]
      else if cfg.WarnComputedIntToPtr = true ∧ isVolatileAccess AccessI = false then
        [Finding.RoundTrip F.Name AccessI "COMPUTED-INTTOPTR" (.IntToPtr form IntSrc)]
      else []) := by
  have hnot : ¬ PTI.IntegerBitWidth < DL.getPointerSizeInBits PTI.PointerAddressSpace := by omega
  have hconst : ∀ BitWidth Val, IntSrc ≠ .ConstantInt BitWidth Val := by
    intro BitWidth Val h
    rw [h, findPtrToIntInIntExpr_ConstantInt] at htrace
    cases htrace
  unfold analyzeIntToPtrAtDeref
  simp only [hroot, htrace, hnot, if_false, reportRoundTrip]
  cases IntSrc with
  | ConstantInt BitWidth Val => exact absurd rfl (hconst BitWidth Val)
  | _ => cases cfg.WarnRoundTrip <;> cases cfg.WarnComputedIntToPtr <;>
      cases isVolatileAccess AccessI <;> simp

/-- Claim C6. For every access instruction, volatile or not, and every setting of the three
flags: when the pointer strips to an integer-to-pointer conversion whose operand traces
(within the hop bound) to a pointer-to-integer conversion whose result is narrower than
the pointer width of its address space, `analyzeIntToPtrAtDeref` emits exactly one finding,
of category `DEF-TRUNC-ROUNDTRIP`. -/
theorem analyzeIntToPtrAtDeref_truncating (cfg : Config) (VT : ValueTracking) (DL : DataLayout)
    (F : Function) (AccessI : Instruction) (PtrVal IntSrc : Value) (form : Form)
    (PTI : PtrToIntOperator)
    (hroot : VT.stripPointerCasts PtrVal = .IntToPtr form IntSrc)
    (htrace : findPtrToIntInIntExpr IntSrc 0 = some PTI)
    (hnarrow : PTI.IntegerBitWidth < DL.getPointerSizeInBits PTI.PointerAddressSpace) :
    analyzeIntToPtrAtDeref cfg VT F AccessI PtrVal DL =
        [Finding.RoundTrip F.Name AccessI "DEF-TRUNC-ROUNDTRIP" (.IntToPtr form IntSrc)] ∧
      ∃ f, analyzeIntToPtrAtDeref cfg VT F AccessI PtrVal DL = [f] ∧
        f.category = "DEF-TRUNC-ROUNDTRIP" := by
  have h := intToPtr_narrow cfg VT DL F AccessI PtrVal IntSrc form PTI hroot htrace hnarrow
  exact ⟨h, _, h, rfl⟩

/-- Witness for claim C6: a volatile store through `inttoptr (ptrtoint @g to i32)` with all
three flags enabled. -/
theorem analyzeIntToPtrAtDeref_truncating_witness :
    analyzeIntToPtrAtDeref ⟨true, true, true⟩ refVT exFn
          (.StoreInst (exConst 0) (.int 8) (.IntToPtr .Inst (.PtrToInt .ConstExpr exGlobal4 0 32)) true)
          (.IntToPtr .Inst (.PtrToInt .ConstExpr exGlobal4 0 32)) packedDL =
        [Finding.RoundTrip exFn.Name
          (.StoreInst (exConst 0) (.int 8) (.IntToPtr .Inst (.PtrToInt .ConstExpr exGlobal4 0 32)) true)
          "DEF-TRUNC-ROUNDTRIP" (.IntToPtr .Inst (.PtrToInt .ConstExpr exGlobal4 0 32))] ∧
      ∃ f, analyzeIntToPtrAtDeref ⟨true, true, true⟩ refVT exFn
          (.StoreInst (exConst 0) (.int 8) (.IntToPtr .Inst (.PtrToInt .ConstExpr exGlobal4 0 32)) true)
          (.IntToPtr .Inst (.PtrToInt .ConstExpr exGlobal4 0 32)) packedDL = [f] ∧
        f.category = "DEF-TRUNC-ROUNDTRIP" :=
  analyzeIntToPtrAtDeref_truncating ⟨true, true, true⟩ refVT packedDL exFn
    (.StoreInst (exConst 0) (.int 8) (.IntToPtr .Inst (.PtrToInt .ConstExpr exGlobal4 0 32)) true)
    (.IntToPtr .Inst (.PtrToInt .ConstExpr exGlobal4 0 32)) (.PtrToInt .ConstExpr exGlobal4 0 32)
    .Inst ⟨32, 0⟩ rfl rfl (by decide)

/-- Counterexample to claim C7 as stated: a non-volatile load through
`inttoptr (ptrtoint @g to i64)` with the round-trip flag disabled and the
computed-address flag enabled. The conversion is as wide as the pointer, and a finding is
emitted although the round-trip flag is off. -/
theorem nontruncating_roundtrip_flagged_without_roundtrip_flag :
    findPtrToIntInIntExpr (.PtrToInt .ConstExpr exGlobal4 0 64) 0 = some ⟨64, 0⟩ ∧
      ¬ (64 < packedDL.getPointerSizeInBits 0) ∧
      analyzeIntToPtrAtDeref ⟨false, true, false⟩ refVT exFn
          (exLoad (.IntToPtr .Inst (.PtrToInt .ConstExpr exGlobal4 0 64)))
          (.IntToPtr .Inst (.PtrToInt .ConstExpr exGlobal4 0 64)) packedDL =
        [Finding.RoundTrip "f" (exLoad (.IntToPtr .Inst (.PtrToInt .ConstExpr exGlobal4 0 64)))
          "COMPUTED-INTTOPTR" (.IntToPtr .Inst (.PtrToInt .ConstExpr exGlobal4 0 64))] :=
  ⟨rfl, by decide, rfl⟩

/-- The volatility test of the pass returns the volatile attribute of every instruction that
is not a volatile bulk operation. -/
theorem isVolatileAccess_eq_isVolatile (I : Instruction)
    (h : I.isBulk = false ∨ I.isVolatile = false) : isVolatileAccess I = I.isVolatile := by
  cases I <;> first | rfl | (simp [Instruction.isBulk, Instruction.isVolatile] at h; simp [isVolatileAccess, Instruction.isVolatile, h])

/-- Claim C7, amended. When the pointer strips to an integer-to-pointer conversion whose
operand traces to a pointer-to-integer conversion at least as wide as the pointer:
`analyzeIntToPtrAtDeref` emits a `ROUNDTRIP` finding (and nothing else) when the round-trip
flag is enabled and no `ROUNDTRIP` finding when it is disabled, whatever the other flags
and the volatility; with the flag disabled, an access that is a read, a write, an atomic
access or a non-volatile bulk operation yields one `COMPUTED-INTTOPTR` finding exactly when
the computed-address flag is enabled and the access does not carry the volatile attribute
(volatile bulk operations are left out here); with all flags off it emits nothing. -/
theorem analyzeIntToPtrAtDeref_nontruncating (cfg : Config) (VT : ValueTracking) (DL : DataLayout)
    (F : Function) (AccessI : Instruction) (PtrVal IntSrc : Value) (form : Form)
    (PTI : PtrToIntOperator)
    (hroot : VT.stripPointerCasts PtrVal = .IntToPtr form IntSrc)
    (htrace : findPtrToIntInIntExpr IntSrc 0 = some PTI)
    (hwide : DL.getPointerSizeInBits PTI.PointerAddressSpace ≤ PTI.IntegerBitWidth) :
    (cfg.WarnRoundTrip = true →
        analyzeIntToPtrAtDeref cfg VT F AccessI PtrVal DL =
          [Finding.RoundTrip F.Name AccessI "ROUNDTRIP" (.IntToPtr form IntSrc)]) ∧
      (cfg.WarnRoundTrip = false →
        (∀ f ∈ analyzeIntToPtrAtDeref cfg VT F AccessI PtrVal DL, f.category ≠ "ROUNDTRIP") ∧
        (AccessI.isBulk = false ∨ AccessI.isVolatile = false →
          analyzeIntToPtrAtDeref cfg VT F AccessI PtrVal DL =
            if cfg.WarnComputedIntToPtr = true ∧ AccessI.isVolatile = false then
              [Finding.RoundTrip F.Name AccessI "COMPUTED-INTTOPTR" (.IntToPtr form IntSrc)]
            else [])) ∧
      analyzeIntToPtrAtDeref Config.default VT F AccessI PtrVal DL = [] := by
  have hw := intToPtr_wide cfg VT DL F AccessI PtrVal IntSrc form PTI hroot htrace hwide
  refine ⟨?_, ?_, ?_⟩
  · intro hrt
    rw [hw, if_pos hrt]
  · intro hrt
    have hrt2 : ¬ cfg.WarnRoundTrip = true := by simp [hrt]
    rw [hw, if_neg hrt2]
    constructor
    · intro f hf
      by_cases hc : cfg.WarnComputedIntToPtr = true ∧ isVolatileAccess AccessI = false
      · rw [if_pos hc] at hf
        simp only [List.mem_singleton] at hf
        subst hf
        simp only [Finding.category]
        decide
      · rw [if_neg hc] at hf
        cases hf
    · intro hkind
      rw [isVolatileAccess_eq_isVolatile AccessI hkind]
  · rw [intToPtr_wide Config.default VT DL F AccessI PtrVal IntSrc form PTI hroot htrace hwide]
    simp [Config.default]

/-- Witness for the amended claim C7: a non-volatile load through
`inttoptr (ptrtoint @g to i64)`, with only the round-trip flag enabled and with only the
computed-address flag enabled. -/
theorem analyzeIntToPtrAtDeref_nontruncating_witness :
    analyzeIntToPtrAtDeref ⟨true, false, false⟩ refVT exFn
          (exLoad (.IntToPtr .Inst (.PtrToInt .ConstExpr exGlobal4 0 64)))
          (.IntToPtr .Inst (.PtrToInt .ConstExpr exGlobal4 0 64)) packedDL =
        [Finding.RoundTrip exFn.Name (exLoad (.IntToPtr .Inst (.PtrToInt .ConstExpr exGlobal4 0 64)))
          "ROUNDTRIP" (.IntToPtr .Inst (.PtrToInt .ConstExpr exGlobal4 0 64))] ∧
      analyzeIntToPtrAtDeref ⟨false, true, false⟩ refVT exFn
          (exLoad (.IntToPtr .Inst (.PtrToInt .ConstExpr exGlobal4 0 64)))
          (.IntToPtr .Inst (.PtrToInt .ConstExpr exGlobal4 0 64)) packedDL =
        (if (⟨false, true, false⟩ : Config).WarnComputedIntToPtr = true ∧
            (exLoad (.IntToPtr .Inst (.PtrToInt .ConstExpr exGlobal4 0 64))).isVolatile = false then
          [Finding.RoundTrip exFn.Name (exLoad (.IntToPtr .Inst (.PtrToInt .ConstExpr exGlobal4 0 64)))
            "COMPUTED-INTTOPTR" (.IntToPtr .Inst (.PtrToInt .ConstExpr exGlobal4 0 64))]
        else []) :=
  ⟨(analyzeIntToPtrAtDeref_nontruncating ⟨true, false, false⟩ refVT packedDL exFn
      (exLoad (.IntToPtr .Inst (.PtrToInt .ConstExpr exGlobal4 0 64)))
      (.IntToPtr .Inst (.PtrToInt .ConstExpr exGlobal4 0 64)) (.PtrToInt .ConstExpr exGlobal4 0 64)
      .Inst ⟨64, 0⟩ rfl rfl (by decide)).1 rfl,
    ((analyzeIntToPtrAtDeref_nontruncating ⟨false, true, false⟩ refVT packedDL exFn
      (exLoad (.IntToPtr .Inst (.PtrToInt .ConstExpr exGlobal4 0 64)))
      (.IntToPtr .Inst (.PtrToInt .ConstExpr exGlobal4 0 64)) (.PtrToInt .ConstExpr exGlobal4 0 64)
      .Inst ⟨64, 0⟩ rfl rfl (by decide)).2.1 rfl).2 (Or.inl rfl)⟩

/-- Claim C8. For every read, write, atomic read-modify-write or atomic compare-exchange with
volatile attribute `Vol` whose pointer strips to an integer-to-pointer conversion of a
literal constant integer, `analyzeIntToPtrAtDeref` emits a finding exactly when the access
is non-volatile and the constant-address flag is enabled, and its category is
`CONST-INTTOPTR`; a volatile access emits nothing under every configuration. -/
theorem analyzeIntToPtrAtDeref_constant (cfg : Config) (VT : ValueTracking) (DL : DataLayout)
    (F : Function) (AccessI : Instruction) (PtrVal P X Y : Value) (T : Ty) (Vol : Bool)
    (form : Form) (BitWidth Val : Nat)
    (hkind : AccessI ∈ [Instruction.LoadInst P T Vol, Instruction.StoreInst X T P Vol,
      Instruction.AtomicRMWInst P X T Vol, Instruction.AtomicCmpXchgInst P X T Y Vol])
    (hroot : VT.stripPointerCasts PtrVal = .IntToPtr form (.ConstantInt BitWidth Val)) :
    analyzeIntToPtrAtDeref cfg VT F AccessI PtrVal DL =
        (if Vol = false ∧ cfg.WarnConstIntToPtrNonVolatile = true then
          [Finding.RoundTrip F.Name AccessI "CONST-INTTOPTR" (.IntToPtr form (.ConstantInt BitWidth Val))]
        else []) ∧
      (Vol = true → analyzeIntToPtrAtDeref cfg VT F AccessI PtrVal DL = []) := by
  have hvol : isVolatileAccess AccessI = Vol := by
    simp only [List.mem_cons, List.mem_singleton, List.not_mem_nil, or_false] at hkind
    rcases hkind with h | h | h | h <;> (subst h; rfl)
  have h : analyzeIntToPtrAtDeref cfg VT F AccessI PtrVal DL =
      (if Vol = false ∧ cfg.WarnConstIntToPtrNonVolatile = true then
        [Finding.RoundTrip F.Name AccessI "CONST-INTTOPTR" (.IntToPtr form (.ConstantInt BitWidth Val))]
      else []) := by
    unfold analyzeIntToPtrAtDeref
    simp only [hroot, findPtrToIntInIntExpr_ConstantInt, hvol, reportRoundTrip]
    cases Vol <;> cases cfg.WarnConstIntToPtrNonVolatile <;> simp
  refine ⟨h, fun hv => ?_⟩
  rw [h, hv]
  simp

/-- Witness for claim C8: a non-volatile atomic read-modify-write through
`inttoptr (i64 4096)` with the constant-address flag enabled. -/
theorem analyzeIntToPtrAtDeref_constant_witness :
    analyzeIntToPtrAtDeref ⟨false, false, true⟩ refVT exFn
          (.AtomicRMWInst (.IntToPtr .ConstExpr (exConst 4096)) (exConst 1) (.int 32) false)
          (.IntToPtr .ConstExpr (exConst 4096)) packedDL =
        (if false = false ∧ (⟨false, false, true⟩ : Config).WarnConstIntToPtrNonVolatile = true then
          [Finding.RoundTrip exFn.Name
            (.AtomicRMWInst (.IntToPtr .ConstExpr (exConst 4096)) (exConst 1) (.int 32) false)
            "CONST-INTTOPTR" (.IntToPtr .ConstExpr (.ConstantInt 64 4096))]
        else []) ∧
      (false = true → analyzeIntToPtrAtDeref ⟨false, false, true⟩ refVT exFn
          (.AtomicRMWInst (.IntToPtr .ConstExpr (exConst 4096)) (exConst 1) (.int 32) false)
          (.IntToPtr .ConstExpr (exConst 4096)) packedDL = []) :=
  analyzeIntToPtrAtDeref_constant ⟨false, false, true⟩ refVT packedDL exFn
    (.AtomicRMWInst (.IntToPtr .ConstExpr (exConst 4096)) (exConst 1) (.int 32) false)
    (.IntToPtr .ConstExpr (exConst 4096)) (.IntToPtr .ConstExpr (exConst 4096)) (exConst 1)
    (exConst 0) (.int 32) false .ConstExpr 64 4096 (by simp) rfl

/-! ## Narrowing casts and the scanner on bulk operations (claims C9, C10) -/

/-- Claim C10. For a bulk-copy whose length resolves to the constant `L`, the findings of the
instruction are the `DEF-OOB` findings of `analyzeDefiniteOOB` on the destination with
size `L`, then those on the source with size `L`, then the round-trip findings of the
destination, then those of the source, whatever each of them is; for a bulk-fill they are
the findings of its destination. -/
theorem bulk_findings (cfg : Config) (VT : ValueTracking) (DL : DataLayout) (F : Function)
    (fuel : Nat) (Dst Src Val Length : Value) (Vol : Bool) (L : Nat)
    (oobDst oobSrc : List Finding)
    (hlen : resolveConstantInt F fuel Length = .ok (some L))
    (hdst : analyzeDefiniteOOB VT F (.MemTransferInst Dst Src Length Vol) Dst L DL = .ok oobDst)
    (hsrc : analyzeDefiniteOOB VT F (.MemTransferInst Dst Src Length Vol) Src L DL = .ok oobSrc) :
    run.body cfg VT DL F fuel (.MemTransferInst Dst Src Length Vol) =
        .ok (oobDst ++ oobSrc ++
          analyzeIntToPtrAtDeref cfg VT F (.MemTransferInst Dst Src Length Vol) Dst DL ++
          analyzeIntToPtrAtDeref cfg VT F (.MemTransferInst Dst Src Length Vol) Src DL) ∧
      (∀ oob, analyzeDefiniteOOB VT F (.MemSetInst Dst Val Length Vol) Dst L DL = .ok oob →
        run.body cfg VT DL F fuel (.MemSetInst Dst Val Length Vol) =
          .ok (oob ++ analyzeIntToPtrAtDeref cfg VT F (.MemSetInst Dst Val Length Vol) Dst DL)) := by
  constructor
  · unfold run.body
    simp only [getPtrAndSize, hlen, hdst, hsrc, run_intToPtr_eq]
  · intro oob hoob
    unfold run.body
    simp only [getPtrAndSize, hlen, hoob, run_intToPtr_eq]

/-- Witness for claim C10: a five-byte copy from offset 2 of the four-byte global to the
address `inttoptr (ptrtoint @g to i8)`; the source is reported out of bounds and the
destination as a truncating round-trip, in this order. -/
theorem bulk_findings_witness :
    run.body Config.default refVT packedDL exFn 1
          (.MemTransferInst (.IntToPtr .Inst (.PtrToInt .ConstExpr exGlobal4 0 8))
            (exByteGEP exGlobal4 2) (exConst 5) false) =
        .ok ([] ++ [reportOOB exFn
              (.MemTransferInst (.IntToPtr .Inst (.PtrToInt .ConstExpr exGlobal4 0 8))
                (exByteGEP exGlobal4 2) (exConst 5) false) exGlobal4 2 4 5] ++
          analyzeIntToPtrAtDeref Config.default refVT exFn
            (.MemTransferInst (.IntToPtr .Inst (.PtrToInt .ConstExpr exGlobal4 0 8))
              (exByteGEP exGlobal4 2) (exConst 5) false)
            (.IntToPtr .Inst (.PtrToInt .ConstExpr exGlobal4 0 8)) packedDL ++
          analyzeIntToPtrAtDeref Config.default refVT exFn
            (.MemTransferInst (.IntToPtr .Inst (.PtrToInt .ConstExpr exGlobal4 0 8))
              (exByteGEP exGlobal4 2) (exConst 5) false)
            (exByteGEP exGlobal4 2) packedDL) ∧
      (∀ oob, analyzeDefiniteOOB refVT exFn
            (.MemSetInst (.IntToPtr .Inst (.PtrToInt .ConstExpr exGlobal4 0 8)) (exConst 0)
              (exConst 5) false)
            (.IntToPtr .Inst (.PtrToInt .ConstExpr exGlobal4 0 8)) 5 packedDL = .ok oob →
        run.body Config.default refVT packedDL exFn 1
            (.MemSetInst (.IntToPtr .Inst (.PtrToInt .ConstExpr exGlobal4 0 8)) (exConst 0)
              (exConst 5) false) =
          .ok (oob ++ analyzeIntToPtrAtDeref Config.default refVT exFn
            (.MemSetInst (.IntToPtr .Inst (.PtrToInt .ConstExpr exGlobal4 0 8)) (exConst 0)
              (exConst 5) false)
            (.IntToPtr .Inst (.PtrToInt .ConstExpr exGlobal4 0 8)) packedDL)) :=
  bulk_findings Config.default refVT packedDL exFn 1
    (.IntToPtr .Inst (.PtrToInt .ConstExpr exGlobal4 0 8)) (exByteGEP exGlobal4 2) (exConst 0)
    (exConst 5) false 5 [] _ rfl rfl rfl

/-! ## Termination, heap sizes, zero counts and volatile bulk operations (claims C11 to C14) -/

/-- Claim C11 at a failing input: in the function `%0 = load i64, ptr %a`,
`store i64 %0, ptr %a`, `memset(@g, 0, %0)` the single value written to the slot is the
read of the slot itself, so `resolveConstantInt` on the length calls itself on the same
value again: no amount of fuel lets it return, and the scan of the function does not
complete. -/
theorem resolveConstantInt_self_store_diverges :
    (∀ fuel, resolveConstantInt exSelfStoreFn (fuel + 1) (.LoadInst exSlotA) =
        resolveConstantInt exSelfStoreFn fuel (.LoadInst exSlotA)) ∧
      (∀ fuel, resolveConstantInt exSelfStoreFn fuel (.LoadInst exSlotA) =
        .error Fault.fuelExhausted) ∧
      (∀ fuel, run Config.default refVT packedDL fuel exSelfStoreFn = .error Fault.fuelExhausted) := by
  have hstep : ∀ fuel, resolveConstantInt exSelfStoreFn (fuel + 1) (.LoadInst exSlotA) =
      resolveConstantInt exSelfStoreFn fuel (.LoadInst exSlotA) := fun _ => rfl
  have hdiv : ∀ fuel, resolveConstantInt exSelfStoreFn fuel (.LoadInst exSlotA) =
      .error Fault.fuelExhausted := by
    intro fuel
    induction fuel with
    | zero => rfl
    | succ n ih => rw [hstep n, ih]
  refine ⟨hstep, hdiv, fun fuel => ?_⟩
  have h1 : run.body Config.default refVT packedDL exSelfStoreFn fuel
      (.LoadInst exSlotA (.int 64) false) = .ok [] := rfl
  have h2 : run.body Config.default refVT packedDL exSelfStoreFn fuel
      (.StoreInst (.LoadInst exSlotA) (.int 64) exSlotA false) = .ok [] := rfl
  have h3 : run.body Config.default refVT packedDL exSelfStoreFn fuel
      (.MemSetInst exGlobal4 (.ConstantInt 8 0) (.LoadInst exSlotA) false) =
      .error Fault.fuelExhausted := by
    unfold run.body
    simp only [getPtrAndSize, hdiv fuel]
  have hl : exSelfStoreFn.Instructions =
      [.LoadInst exSlotA (.int 64) false,
       .StoreInst (.LoadInst exSlotA) (.int 64) exSlotA false,
       .MemSetInst exGlobal4 (.ConstantInt 8 0) (.LoadInst exSlotA) false] := rfl
  unfold run
  rw [hl]
  simp only [run.loop, h1, h2, h3]

/-- Claim C12 at a failing input: for `calloc(2^63 + 2, 2)` the product is `2^64 + 4`, and
`getHeapAllocSize` returns the wrapped size 4 instead of unknown; an eight-byte load from
the allocation is then reported out of bounds against an object of 4 bytes. -/
theorem getHeapAllocSize_calloc_wraps :
    (2 ^ 63 + 2) * 2 = 2 ^ 64 + 4 ∧
      getHeapAllocSize exFn exCallocWrap packedDL = .ok (some 4) ∧
      analyzeDefiniteOOB refVT exFn (.LoadInst exCallocWrap (.int 64) false) exCallocWrap 8 packedDL =
        .ok [Finding.OOB "f" (.LoadInst exCallocWrap (.int 64) false) exCallocWrap none 0 4 8] :=
  ⟨by norm_num, rfl, rfl⟩

/-- Counterexample to claim C13 as stated: at an array with element count 0 the constant
index `-1` is flagged. -/
theorem negative_index_into_zero_count_array_flagged :
    getSExtValue 64 (2 ^ 64 - 1) = -1 ∧
      hasDefiniteSubobjectOOB.body packedDL (.array (.int 8) 0) 0 (.ConstantInt 64 (2 ^ 64 - 1)) 0 0 =
        .ret true (-1) 0 ∧
      hasDefiniteSubobjectOOB (.array (.int 8) 0) [exConst 0, .ConstantInt 64 (2 ^ 64 - 1)] packedDL 0 0 =
        .ok (true, -1, 0) :=
  ⟨rfl, rfl, rfl⟩

/-- Claim C13, amended. In `hasDefiniteSubobjectOOB`, at an array step whose array type has
element count 0, every non-negative constant index lets the walk continue unflagged and
every negative constant index is flagged; and the index 0 is not flagged at any step,
whatever the active type and its field or element count. -/
theorem zero_count_and_zero_index_steps (DL : DataLayout) (elem T : Ty) (Offset : Int)
    (BitWidth Val BitWidth0 : Nat) (bo : Int) (ss : Nat) :
    hasDefiniteSubobjectOOB.body DL (.array elem 0) Offset (.ConstantInt BitWidth Val) bo ss =
        (if getSExtValue BitWidth Val < 0 then
          .ret true
            (toI64 (toU64 Offset + toU64 (getSExtValue BitWidth Val) * (DL.getTypeAllocSize elem).getFixedValue))
            0
        else
          .next elem
            (toI64 (toU64 Offset + toU64 (getSExtValue BitWidth Val) * (DL.getTypeAllocSize elem).getFixedValue))) ∧
      ∀ b s, hasDefiniteSubobjectOOB.body DL T Offset (.ConstantInt BitWidth0 0) bo ss ≠ .ret true b s := by
  constructor
  · unfold hasDefiniteSubobjectOOB.body
    by_cases h : getSExtValue BitWidth Val < 0
    · simp [h]
    · simp [h]
  · intro b s
    have h0 : getSExtValue BitWidth0 0 = 0 := by
      unfold getSExtValue
      split
      · rfl
      · simp
    unfold hasDefiniteSubobjectOOB.body
    cases T with
    | struct elems =>
      simp only [h0]
      cases elems with
      | nil => simp
      | cons e es => simp
    | array e n => simp [h0]
    | int bits => simp
    | ptr a => simp
    | other t => simp

/-- Claim C14 at a failing input: a volatile `memset` of four bytes to the constant address
`inttoptr (i64 4096)` with the constant-address flag enabled is reported as `CONST-INTTOPTR`,
and a volatile `memcpy` from a computed address with the computed-address flag enabled as
`COMPUTED-INTTOPTR`, while the volatile store to the same constant address is not
reported. -/
theorem volatile_bulk_operations_flagged :
    isVolatileAccess (.MemSetInst exConstAddr (.ConstantInt 8 0) (exConst 4) true) = false ∧
      run.body ⟨false, false, true⟩ refVT packedDL exFn 1
          (.MemSetInst exConstAddr (.ConstantInt 8 0) (exConst 4) true) =
        .ok [Finding.RoundTrip "f" (.MemSetInst exConstAddr (.ConstantInt 8 0) (exConst 4) true)
          "CONST-INTTOPTR" exConstAddr] ∧
      run.body ⟨false, true, false⟩ refVT packedDL exFn 1
          (.MemTransferInst exGlobal4 exComputedAddr (exConst 4) true) =
        .ok [Finding.RoundTrip "f" (.MemTransferInst exGlobal4 exComputedAddr (exConst 4) true)
          "COMPUTED-INTTOPTR" exComputedAddr] ∧
      run.body ⟨false, false, true⟩ refVT packedDL exFn 1
          (.StoreInst (.ConstantInt 8 0) (.int 8) exConstAddr true) = .ok [] :=
  ⟨rfl, rfl, rfl, rfl⟩

/-! ## Single-write recovery (claims C15, C16) -/

/-- The scan of a concatenation continues on the second part with the value found in the
first, unless the first part already returned. -/
theorem storedValueLoop_append (AI : Nat) (xs ys : List Instruction) :
    ∀ Stored, storedValueLoop AI (xs ++ ys) Stored =
      match storedValueLoop AI xs Stored with
      | none => none
      | some Stored1 => storedValueLoop AI ys Stored1 := by
  induction xs with
  | nil => intro Stored; rfl
  | cons U Us ih =>
    intro Stored
    cases U with
    | StoreInst ValueOperand ValTy Pointer Volatile =>
      simp only [List.cons_append, storedValueLoop]
      by_cases hp : isAlloca AI Pointer = true
      · simp only [hp, if_true]
        cases Stored with
        | none => simp only [Option.isSome_none, Bool.false_eq_true, if_false]; exact ih _
        | some w => simp
      · simp only [hp, if_false]
        exact ih _
    | _ => simp only [List.cons_append, storedValueLoop]; exact ih _

/-- Copies of an instruction that writes nothing to the slot leave the scan unchanged. -/
theorem storedValueLoop_skip (AI : Nat) (I : Instruction) (hI : directWrite AI I = none)
    (l : List Value) :
    ∀ Stored, storedValueLoop AI (l.map fun _ => I) Stored = some Stored := by
  induction l with
  | nil => intro Stored; rfl
  | cons x xs ih =>
    intro Stored
    cases I with
    | StoreInst ValueOperand ValTy Pointer Volatile =>
      have hp : isAlloca AI Pointer = false := by
        cases h : isAlloca AI Pointer
        · rfl
        · simp [directWrite, h] at hI
      simp only [List.map_cons, storedValueLoop, hp, Bool.false_eq_true, if_false]
      exact ih Stored
    | _ => simp only [List.map_cons, storedValueLoop]; exact ih Stored

/-- The scan over the uses of the slot by one instruction. -/
theorem storedValueLoop_uses (AI : Nat) (I : Instruction) (Stored : Option Value) :
    storedValueLoop AI ((I.operands.filter (isAlloca AI)).map fun _ => I) Stored =
      match directWrite AI I with
      | none => some Stored
      | some w => if Stored.isSome = true ∨ isAlloca AI w = true then none else some (some w) := by
  cases hd : directWrite AI I with
  | none => exact storedValueLoop_skip AI I hd _ Stored
  | some w =>
    cases I with
    | StoreInst ValueOperand ValTy Pointer Volatile =>
      have hp : isAlloca AI Pointer = true := by
        cases h : isAlloca AI Pointer
        · simp [directWrite, h] at hd
        · rfl
      have hw : ValueOperand = w := by
        simpa [directWrite, hp] using hd
      subst hw
      cases hv : isAlloca AI ValueOperand <;> cases Stored <;>
        simp [Instruction.operands, List.filter, hv, hp, storedValueLoop]
    | _ => simp [directWrite] at hd

/-- The scan of `AI->users()` computes the single-write rule on the direct writes. -/
theorem storedValueLoop_users (F : Function) (AI : Nat) :
    storedValueLoop AI (users F AI) none = afterWrites AI none (directWrites F AI) := by
  have h : ∀ (Is : List Instruction) (Stored : Option Value),
      storedValueLoop AI
          (Is.flatMap fun I => (I.operands.filter (isAlloca AI)).map fun _ => I) Stored =
        afterWrites AI Stored (Is.filterMap (directWrite AI)) := by
    intro Is
    induction Is with
    | nil => intro Stored; rfl
    | cons I Is ih =>
      intro Stored
      rw [List.flatMap_cons, storedValueLoop_append, storedValueLoop_uses]
      cases hd : directWrite AI I with
      | none =>
        simp only [List.filterMap_cons, hd]
        exact ih Stored
      | some w =>
        simp only [List.filterMap_cons, hd, afterWrites]
        by_cases hc : Stored.isSome = true ∨ isAlloca AI w = true
        · simp only [hc, if_true]
        · simp only [hc, if_false]
          exact ih (some w)
  exact h F.Instructions none

/-- With no direct write the scan ends with no stored value. -/
theorem afterWrites_nil (AI : Nat) : afterWrites AI none [] = some none := rfl

/-- With one direct write the scan ends with the written value, unless it is the slot. -/
theorem afterWrites_single (AI : Nat) (w : Value) :
    afterWrites AI none [w] = if isAlloca AI w = true then none else some (some w) := by
  simp [afterWrites]

/-- The resolution of a read of a slot, in terms of the direct writes to the slot. -/
theorem resolveConstantInt_load (F : Function) (AI : Nat) (T : Ty) (Size : Option TypeSize)
    (fuel : Nat) :
    resolveConstantInt F (fuel + 1) (.LoadInst (.AllocaInst AI T Size)) =
      match afterWrites AI none (directWrites F AI) with
      | none => .ok none
      | some (some Stored) => resolveConstantInt F fuel Stored
      | some none => .ok none := by
  rw [← storedValueLoop_users]
  rfl

/-- Counterexample to claim C16 as stated: in the two-slot function the length is a read of
slot 1, whose single written value is a read of slot 2, whose single written value is the
constant 5. `resolveConstantInt` returns 5, and the five-byte `memset` of the four-byte
global is analysed and reported. -/
theorem two_levels_of_slots_resolved :
    directWrites exTwoSlotFn 1 = [.LoadInst exSlotB] ∧
      directWrites exTwoSlotFn 2 = [exConst 5] ∧
      resolveConstantInt exTwoSlotFn 3 (.LoadInst exSlotA) = .ok (some 5) ∧
      run.body Config.default refVT packedDL exTwoSlotFn 3
          (.MemSetInst exGlobal4 (.ConstantInt 8 0) (.LoadInst exSlotA) false) =
        .ok [Finding.OOB "two_slots"
          (.MemSetInst exGlobal4 (.ConstantInt 8 0) (.LoadInst exSlotA) false)
          exGlobal4 (some " base=@g") 0 4 5] :=
  ⟨rfl, rfl, rfl, rfl⟩

/-- Claim C16, amended. Constant resolution follows single-write storage slots through
two levels of indirection: for a length that is a read of slot `A` whose single written
value is a read of slot `B` whose single written value is the constant `c`,
`resolveConstantInt` returns `c`, and a bulk-fill with this length is analysed with
length `c`. -/
theorem resolveConstantInt_through_two_slots (F : Function) (A B : Nat) (TA TB : Ty)
    (SA SB : Option TypeSize) (BitWidth c fuel : Nat)
    (hA : directWrites F A = [.LoadInst (.AllocaInst B TB SB)])
    (hB : directWrites F B = [.ConstantInt BitWidth c]) :
    resolveConstantInt F (fuel + 3) (.LoadInst (.AllocaInst A TA SA)) = .ok (some c) ∧
      ∀ (cfg : Config) (VT : ValueTracking) (DL : DataLayout) (Dst Val : Value) (Vol : Bool)
        (oob : List Finding),
        analyzeDefiniteOOB VT F (.MemSetInst Dst Val (.LoadInst (.AllocaInst A TA SA)) Vol) Dst c DL =
          .ok oob →
        run.body cfg VT DL F (fuel + 3) (.MemSetInst Dst Val (.LoadInst (.AllocaInst A TA SA)) Vol) =
          .ok (oob ++ analyzeIntToPtrAtDeref cfg VT F
            (.MemSetInst Dst Val (.LoadInst (.AllocaInst A TA SA)) Vol) Dst DL) := by
  have hres : resolveConstantInt F (fuel + 3) (.LoadInst (.AllocaInst A TA SA)) = .ok (some c) := by
    rw [resolveConstantInt_load, hA, afterWrites_single]
    simp only [isAlloca, Bool.false_eq_true, if_false]
    rw [resolveConstantInt_load, hB, afterWrites_single]
    simp only [isAlloca, Bool.false_eq_true, if_false]
    rfl
  refine ⟨hres, ?_⟩
  intro cfg VT DL Dst Val Vol oob hoob
  unfold run.body
  simp only [getPtrAndSize, hres, hoob, run_intToPtr_eq]

/-- Witness for the amended claim C16: the two-slot function. -/
theorem resolveConstantInt_through_two_slots_witness :
    resolveConstantInt exTwoSlotFn (0 + 3) (.LoadInst (.AllocaInst 1 (.int 64) (some ⟨8, false⟩))) =
      .ok (some 5) :=
  (resolveConstantInt_through_two_slots exTwoSlotFn 1 2 (.int 64) (.int 64) (some ⟨8, false⟩)
    (some ⟨8, false⟩) 64 5 0 rfl rfl).1

/-! ## Hop bound and unresolved lengths (claims C17, C18) -/

/-- A chain above a pointer-to-integer conversion is not a constant. -/
theorem chainAbove_not_const (form : Form) (P : Value) (AS IntBits : Nat) (hops : List Hop) :
    isConstantInt (chainAbove (.PtrToInt form P AS IntBits) hops) = false := by
  cases hops with
  | nil => rfl
  | cons H Hs => cases H <;> rfl

/-- The trace through an `add`/`sub` instruction with the constant on the right. -/
theorem findPtrToIntInIntExpr_constRight (Op : BinaryOp) (X : Value) (BitWidth Val Depth : Nat)
    (hOp : Op = BinaryOp.Add ∨ Op = BinaryOp.Sub) (hX : isConstantInt X = false) :
    findPtrToIntInIntExpr (.BinOp .Inst Op X (.ConstantInt BitWidth Val)) Depth =
      if Depth > 8 then none else findPtrToIntInIntExpr X (Depth + 1) := by
  cases X <;> first | (simp [isConstantInt] at hX; done) | simp [findPtrToIntInIntExpr, hOp]

/-- The trace from depth `Depth` through a chain of hops above a conversion. -/
theorem findPtrToIntInIntExpr_chainAbove (form : Form) (P : Value) (AS IntBits : Nat)
    (hops : List Hop) (hwf : ∀ H ∈ hops, H.wellFormed = true) :
    ∀ Depth, findPtrToIntInIntExpr (chainAbove (.PtrToInt form P AS IntBits) hops) Depth =
      if Depth + hops.length ≤ 8 then some ⟨IntBits, AS⟩ else none := by
  induction hops with
  | nil =>
    intro Depth
    simp only [chainAbove, findPtrToIntInIntExpr, List.length_nil, Nat.add_zero]
    by_cases h : Depth > 8
    · rw [if_pos h, if_neg (by omega)]
    · rw [if_neg h, if_pos (by omega)]
  | cons H Hs ih =>
    intro Depth
    have hH : H.wellFormed = true := hwf H (List.mem_cons_self _ _)
    have ih1 := ih (fun H1 h1 => hwf H1 (List.mem_cons_of_mem _ h1)) (Depth + 1)
    have hlen : (H :: Hs).length = Hs.length + 1 := rfl
    have key : (if Depth > 8 then none
        else findPtrToIntInIntExpr (chainAbove (.PtrToInt form P AS IntBits) Hs) (Depth + 1)) =
        if Depth + (H :: Hs).length ≤ 8 then some (⟨IntBits, AS⟩ : PtrToIntOperator) else none := by
      rw [ih1, hlen]
      by_cases h : Depth > 8
      · rw [if_pos h, if_neg (by omega)]
      · rw [if_neg h]
        by_cases h2 : Depth + 1 + Hs.length ≤ 8
        · rw [if_pos h2, if_pos (by omega)]
        · rw [if_neg h2, if_neg (by omega)]
    rw [← key]
    cases H with
    | cast f Op T =>
      have hOp : Op = CastOp.ZExt ∨ Op = CastOp.SExt ∨ Op = CastOp.Trunc := by
        simpa [Hop.wellFormed, or_assoc] using hH
      simp only [chainAbove, Hop.apply, findPtrToIntInIntExpr, hOp, if_true]
    | constLeft Op BitWidth Val =>
      have hOp : Op = BinaryOp.Add ∨ Op = BinaryOp.Sub := by
        simpa [Hop.wellFormed] using hH
      simp only [chainAbove, Hop.apply, findPtrToIntInIntExpr, hOp, if_true]
    | constRight Op BitWidth Val =>
      have hOp : Op = BinaryOp.Add ∨ Op = BinaryOp.Sub := by
        simpa [Hop.wellFormed] using hH
      simp only [chainAbove, Hop.apply]
      exact findPtrToIntInIntExpr_constRight Op _ BitWidth Val Depth hOp
        (chainAbove_not_const form P AS IntBits Hs)

/-- The hop bound of the trace on instruction chains: for a value that lies `k` hops
(widening or narrowing casts in either form, `add`/`sub` instructions with a constant
operand) in a straight chain above a pointer-to-integer conversion,
`findPtrToIntInIntExpr` returns that conversion when `k ≤ 8` and `none` when `k ≥ 9`; at
any depth it returns `none` on a binary operation neither of whose operands is a constant,
and on a binary operation other than `add` and `sub`. -/
theorem findPtrToIntInIntExpr_hop_bound (form : Form) (P : Value) (AS IntBits : Nat)
    (hops : List Hop) (hwf : ∀ H ∈ hops, H.wellFormed = true) :
    findPtrToIntInIntExpr (chainAbove (.PtrToInt form P AS IntBits) hops) 0 =
        (if hops.length ≤ 8 then some ⟨IntBits, AS⟩ else none) ∧
      (∀ (f : Form) (Op : BinaryOp) (L R : Value) (Depth : Nat),
        isConstantInt L = false → isConstantInt R = false →
        findPtrToIntInIntExpr (.BinOp f Op L R) Depth = none) ∧
      (∀ (f : Form) (L R : Value) (Depth : Nat),
        findPtrToIntInIntExpr (.BinOp f BinaryOp.OtherBinary L R) Depth = none) := by
  refine ⟨?_, ?_, ?_⟩
  · have h := findPtrToIntInIntExpr_chainAbove form P AS IntBits hops hwf 0
    simpa using h
  · intro f Op L R Depth hL hR
    cases f with
    | ConstExpr => simp [findPtrToIntInIntExpr]
    | Inst =>
      cases L <;> first | (simp [isConstantInt] at hL; done) |
        (cases R <;> first | (simp [isConstantInt] at hR; done) | simp [findPtrToIntInIntExpr])
  · intro f L R Depth
    cases f <;> simp [findPtrToIntInIntExpr]

/-- Eight hops above `ptrtoint @g to i64` are traced, nine are not. -/
theorem findPtrToIntInIntExpr_hop_bound_witness :
    findPtrToIntInIntExpr (chainAbove (.PtrToInt .ConstExpr exGlobal4 0 64)
        [.cast .Inst .ZExt (.int 64), .constRight .Add 64 1, .cast .Inst .Trunc (.int 32),
          .constLeft .Sub 32 7, .cast .ConstExpr .SExt (.int 64), .constRight .Sub 64 2,
          .cast .Inst .Trunc (.int 16), .cast .Inst .ZExt (.int 64)]) 0 = some ⟨64, 0⟩ ∧
      findPtrToIntInIntExpr (chainAbove (.PtrToInt .ConstExpr exGlobal4 0 64)
        [.cast .Inst .ZExt (.int 64), .cast .Inst .ZExt (.int 64), .constRight .Add 64 1,
          .cast .Inst .Trunc (.int 32), .constLeft .Sub 32 7, .cast .ConstExpr .SExt (.int 64),
          .constRight .Sub 64 2, .cast .Inst .Trunc (.int 16), .cast .Inst .ZExt (.int 64)]) 0 = none :=
  ⟨(findPtrToIntInIntExpr_hop_bound .ConstExpr exGlobal4 0 64 _ (by decide)).1,
    (findPtrToIntInIntExpr_hop_bound .ConstExpr exGlobal4 0 64 _ (by decide)).1⟩

/-- Claim C17 at a failing input: the constant expression
`add (ptrtoint (ptr @g to i32), i32 4)` lies one hop, an `add` with a constant, above a
pointer-to-integer conversion, and `findPtrToIntInIntExpr` returns `none` for it, while it
follows the same `add` as an instruction and a constant-expression cast. A load through
`inttoptr` of the constant expression is therefore not reported as a truncating
round-trip, and the load through the instruction form is. -/
theorem constant_expression_add_not_traced :
    findPtrToIntInIntExpr exConstExprAdd 0 = none ∧
      findPtrToIntInIntExpr exInstAdd 0 = some ⟨32, 0⟩ ∧
      findPtrToIntInIntExpr
        (.Cast .ConstExpr .ZExt (.PtrToInt .ConstExpr exGlobal4 0 32) (.int 64)) 0 = some ⟨32, 0⟩ ∧
      run.body Config.default refVT packedDL exFn 1
          (exLoad (.IntToPtr .ConstExpr exConstExprAdd)) = .ok [] ∧
      run.body Config.default refVT packedDL exFn 1 (exLoad (.IntToPtr .Inst exInstAdd)) =
        .ok [Finding.RoundTrip "f" (exLoad (.IntToPtr .Inst exInstAdd)) "DEF-TRUNC-ROUNDTRIP"
          (.IntToPtr .Inst exInstAdd)] :=
  ⟨rfl, rfl, rfl, rfl, rfl⟩

/-- Claim C18. For a bulk-fill or bulk-copy whose length `resolveConstantInt` leaves
unresolved, the scanner produces no finding for the instruction, whatever its destination
and source pointers are. -/
theorem unresolved_length_no_finding (cfg : Config) (VT : ValueTracking) (DL : DataLayout)
    (F : Function) (fuel : Nat) (Dst Src Val Length : Value) (Vol : Bool)
    (hlen : resolveConstantInt F fuel Length = .ok none) :
    run.body cfg VT DL F fuel (.MemSetInst Dst Val Length Vol) = .ok [] ∧
      run.body cfg VT DL F fuel (.MemTransferInst Dst Src Length Vol) = .ok [] := by
  constructor <;> (unfold run.body; simp only [getPtrAndSize, hlen])

/-- Witness for claim C18: with a length that is a function argument, a `memset` far beyond
the four-byte global and a `memcpy` to a truncating round-trip are not reported, with every
flag enabled. -/
theorem unresolved_length_no_finding_witness :
    run.body ⟨true, true, true⟩ refVT packedDL exFn 1
        (.MemSetInst (exByteGEP exGlobal4 100) (.ConstantInt 8 0) (.Other 7) false) = .ok [] ∧
      run.body ⟨true, true, true⟩ refVT packedDL exFn 1
        (.MemTransferInst (exByteGEP exGlobal4 100) (.IntToPtr .Inst (.PtrToInt .ConstExpr exGlobal4 0 8))
          (.Other 7) false) = .ok [] :=
  unresolved_length_no_finding ⟨true, true, true⟩ refVT packedDL exFn 1 (exByteGEP exGlobal4 100)
    (.IntToPtr .Inst (.PtrToInt .ConstExpr exGlobal4 0 8)) (.ConstantInt 8 0) (.Other 7) false rfl

/-! ## Structure of the subobject walk and field lookups (claims C19, C20) -/

/-- On an index list that LLVM admits the walk never looks up a field outside a struct: it
returns. -/
theorem loop_ok_of_valid (DL : DataLayout) (bo : Int) (ss : Nat) (idxs : List Value) :
    ∀ (T : Ty) (O : Int), structIndicesValid T idxs = true →
      ∃ r, hasDefiniteSubobjectOOB.loop DL T O idxs bo ss = .ok r := by
  induction idxs with
  | nil => intro T O _; exact ⟨_, rfl⟩
  | cons i is ih =>
    intro T O hv
    unfold hasDefiniteSubobjectOOB.loop
    cases hb : hasDefiniteSubobjectOOB.body DL T O i bo ss with
    | ret a b c => exact ⟨_, rfl⟩
    | next T1 O1 => exact ih T1 O1 (structIndicesValid_step DL T O i bo ss T1 O1 is hb hv)
    | fault e =>
      exfalso
      unfold hasDefiniteSubobjectOOB.body at hb
      cases i <;> first | cases hb | skip
      cases T <;> first | cases hb | skip
      · rename_i BitWidth Val elems
        dsimp only at hb
        split at hb
        · cases hb
        · rename_i hc
          simp only [structIndicesValid] at hv
          split at hv
          · cases hl : elems[(getSExtValue BitWidth Val).toNat]? with
            | none => rw [hl] at hv; cases hv
            | some FieldTy => rw [hl] at hb; cases hb
          · cases hv
      · dsimp only at hb
        split at hb <;> cases hb

/-- A struct step with a valid field index continues with the type of that field. -/
theorem body_struct_valid (DL : DataLayout) (elems : List Ty) (O : Int) (BitWidth Val : Nat)
    (bo : Int) (ss : Nat) (rest : List Value)
    (hv : structIndicesValid (.struct elems) (.ConstantInt BitWidth Val :: rest) = true) :
    0 ≤ getSExtValue BitWidth Val ∧ (getSExtValue BitWidth Val).toNat < elems.length ∧
      ∃ FieldTy, elems[(getSExtValue BitWidth Val).toNat]? = some FieldTy ∧
        hasDefiniteSubobjectOOB.body DL (.struct elems) O (.ConstantInt BitWidth Val) bo ss =
          .next FieldTy
            (toI64 (toU64 O + DL.getElementOffset elems (getSExtValue BitWidth Val).toNat)) := by
  simp only [structIndicesValid] at hv
  split at hv
  · rename_i h0
    cases hl : elems[(getSExtValue BitWidth Val).toNat]? with
    | none => rw [hl] at hv; cases hv
    | some FieldTy =>
      have hlt : (getSExtValue BitWidth Val).toNat < elems.length := by
        by_contra hcon
        have : elems[(getSExtValue BitWidth Val).toNat]? = none :=
          List.getElem?_eq_none (by omega)
        rw [this] at hl
        cases hl
      refine ⟨h0, hlt, FieldTy, rfl, ?_⟩
      unfold hasDefiniteSubobjectOOB.body
      dsimp only
      have hflag : ¬ (decide (getSExtValue BitWidth Val < 0) ||
          (decide (getSExtValue BitWidth Val ≥ (elems.length : Int)) &&
            getSExtValue BitWidth Val != 0 && decide ((elems.length : Int) > 0))) = true := by
        simp only [Bool.or_eq_true, Bool.and_eq_true, decide_eq_true_eq, bne_iff_ne]
        omega
      rw [if_neg hflag, hl]
  · cases hv

/-- Claim C20. In `hasDefiniteSubobjectOOB`, on every index list that a `GetElementPtrInst`
carries (at a struct the index is a constant that selects a field), whatever structs occur
in the types, also structs without fields: the walk returns without an out-of-range lookup
into a struct layout, and at every struct step it reaches, on a struct of `N` fields with
constant index `i`, `0 ≤ i < N` and the step continues with field `i`. And for every struct
with `N ≥ 1` fields and every constant index, admitted or not, a step that is not flagged
has `0 ≤ i < N`: the test of the walk guards both lookups. -/
theorem struct_field_lookups_in_range (DL : DataLayout) (SrcTy : Ty) (first : Value)
    (idxs : List Value) (bo : Int) (ss : Nat)
    (hvalid : structIndicesValid SrcTy idxs = true) :
    (∃ r, hasDefiniteSubobjectOOB SrcTy (first :: idxs) DL bo ss = .ok r) ∧
      (∀ pre rest elems O BitWidth Val, idxs = pre ++ .ConstantInt BitWidth Val :: rest →
        hasDefiniteSubobjectOOB.reach DL SrcTy 0 pre = some (.struct elems, O) →
        0 ≤ getSExtValue BitWidth Val ∧ (getSExtValue BitWidth Val).toNat < elems.length ∧
          ∃ FieldTy, elems[(getSExtValue BitWidth Val).toNat]? = some FieldTy ∧
            hasDefiniteSubobjectOOB.body DL (.struct elems) O (.ConstantInt BitWidth Val) bo ss =
              .next FieldTy
                (toI64 (toU64 O + DL.getElementOffset elems (getSExtValue BitWidth Val).toNat))) ∧
      (∀ (elems : List Ty) (Offset : Int) (BitWidth Val : Nat), 0 < elems.length →
        (∀ b s, hasDefiniteSubobjectOOB.body DL (.struct elems) Offset (.ConstantInt BitWidth Val) bo ss ≠
          .ret true b s) →
        0 ≤ getSExtValue BitWidth Val ∧ (getSExtValue BitWidth Val).toNat < elems.length) := by
  refine ⟨loop_ok_of_valid DL bo ss idxs SrcTy 0 hvalid, ?_, ?_⟩
  · intro pre rest elems O BitWidth Val hsplit hreach
    rw [hsplit] at hvalid
    exact body_struct_valid DL elems O BitWidth Val bo ss rest
      (structIndicesValid_of_reach DL pre _ SrcTy 0 (.struct elems) O hreach hvalid)
  · intro elems Offset BitWidth Val hN hnot
    by_contra hcon
    apply hnot Offset ss
    unfold hasDefiniteSubobjectOOB.body
    dsimp only
    have hflag : (decide (getSExtValue BitWidth Val < 0) ||
        (decide (getSExtValue BitWidth Val ≥ (elems.length : Int)) && getSExtValue BitWidth Val != 0 &&
          decide ((elems.length : Int) > 0))) = true := by
      simp only [Bool.or_eq_true, Bool.and_eq_true, decide_eq_true_eq, bne_iff_ne]
      by_cases hneg : getSExtValue BitWidth Val < 0
      · exact Or.inl hneg
      · right
        refine ⟨⟨?_, ?_⟩, ?_⟩ <;> omega
    rw [if_pos hflag]

/-- Witness for claim C20: over `[4 x { i32, {}, i8 }]` the indices `(0, 1, 2)` select field
2 of element 1; the struct without fields is a field type and is never stepped into. -/
theorem struct_field_lookups_in_range_witness :
    (∃ r, hasDefiniteSubobjectOOB (.array (.struct [.int 32, .struct [], .int 8]) 4)
        (exConst 0 :: [exConst 1, .ConstantInt 32 2]) packedDL 0 0 = .ok r) ∧
      (0 ≤ getSExtValue 32 2 ∧ (getSExtValue 32 2).toNat < [Ty.int 32, .struct [], .int 8].length ∧
        ∃ FieldTy, [Ty.int 32, .struct [], .int 8][(getSExtValue 32 2).toNat]? = some FieldTy ∧
          hasDefiniteSubobjectOOB.body packedDL (.struct [.int 32, .struct [], .int 8]) 5
              (.ConstantInt 32 2) 0 0 =
            .next FieldTy
              (toI64 (toU64 5 + packedDL.getElementOffset [.int 32, .struct [], .int 8]
                (getSExtValue 32 2).toNat))) :=
  ⟨(struct_field_lookups_in_range packedDL (.array (.struct [.int 32, .struct [], .int 8]) 4)
      (exConst 0) [exConst 1, .ConstantInt 32 2] 0 0 rfl).1,
    (struct_field_lookups_in_range packedDL (.array (.struct [.int 32, .struct [], .int 8]) 4)
      (exConst 0) [exConst 1, .ConstantInt 32 2] 0 0 rfl).2.1 [exConst 1] []
      [.int 32, .struct [], .int 8] 5 32 2 rfl rfl⟩

end SuspiciousPtr
